import Mathlib

/-!
Verification of the VM-to-assembly translator (command classifier,
code-generation engine and translation driver).

The development shallowly embeds the translator:

* the classifier (crate parser, src/lib.rs) becomes string functions
  over one trimmed source line; Rust panics (expect/unwrap/panic!)
  are modelled as the dedicated panic outcome of the result types
  (`Option.none` or `PResult.panic`), while recoverable `Result`
  errors become `PResult.err`;
* the code generator (crate code_writer, src/lib.rs plus
  helper/arithmetic.rs) becomes functions producing structured
  assembly lines (`Line`): one `Line` per emitted assembly line, in
  emission order, with comment and blank lines dropped since they
  carry no meaning for the assembler;
* the driver loop (src/main.rs, vm_translator) becomes `runUnit` /
  `runUnits` / `translateRun` over classified commands, reproducing
  its counter-increment placement exactly (the increment is skipped
  after the final command of each source unit, mirroring the
  has_more_lines check that breaks out of the loop before the
  increment) and the u16 width of the uniqueness counter (the
  increment wraps modulo 2^16, as the release build does);
* the 16-bit target machine gets a small-step semantics (`Mach`,
  `stepInstr`, `run`), and an assembler (`assemble`) that
  resolves label declarations and the predefined register symbols;
  external variable symbols are resolved by a valuation argument.

Machine words are natural numbers reduced modulo 2^16 = 65536 by
every ALU operation; the all-bits-set sentinel is 65535.
-/

namespace VMTrans

/-! ## Classifier (crate parser) -/

/-- The nine arithmetic/logical/comparison opcodes, in source order. -/
def arithmeticCommands : List String :=
  ["add", "sub", "neg", "eq", "gt", "lt", "and", "or", "not"]

/-- Command kinds, mirroring enum CommandType of the parser crate. -/
inductive CommandType
  | Arithmetic
  | Push
  | Pop
  | Label
  | Goto
  | If
  | Function
  | Return
  | Call
deriving DecidableEq, Repr

/-- Rust str::starts_with, computed on the character list. -/
def strStartsWith (s p : String) : Bool :=
  p.data.isPrefixOf s.data

/-- Parser.command_type: classify one trimmed line by keyword, testing
candidates by string-prefix match in the source's dispatch order.
The source returns Ok(None) for an unrecognized keyword; that is the
`none` case here. -/
def commandType (cmd : String) : Option CommandType :=
  if arithmeticCommands.any (fun a => strStartsWith cmd a) then some .Arithmetic
  else if strStartsWith cmd "push" then some .Push
  else if strStartsWith cmd "pop" then some .Pop
  else if strStartsWith cmd "label" then some .Label
  else if strStartsWith cmd "goto" then some .Goto
  else if strStartsWith cmd "if-goto" then some .If
  else if strStartsWith cmd "function" then some .Function
  else if strStartsWith cmd "return" then some .Return
  else if strStartsWith cmd "call" then some .Call
  else none

/-- Split a character list at characters satisfying p, keeping empty
pieces (they are filtered away below, as Rust split_whitespace
yields no empty items). -/
def splitCharsAux (p : Char → Bool) : List Char → List Char → List (List Char)
  | [], acc => [acc.reverse]
  | c :: rest, acc =>
    if p c then acc.reverse :: splitCharsAux p rest []
    else splitCharsAux p rest (c :: acc)

/-- Rust str::split_whitespace: split on whitespace, dropping empty
pieces. -/
def splitWs (s : String) : List String :=
  ((splitCharsAux (fun c => c.isWhitespace) s.data []).filter
    (fun l => l ≠ [])).map (fun l => String.mk l)

/-- Parser.arg1. The source unwraps command_type and indexes the
whitespace-split tokens with expect; both abort the process on
failure, modelled by `none`. The Return kind falls into the source's
panicking catch-all arm. -/
def arg1 (line : String) : Option String :=
  match commandType line with
  | none => none
  | some t =>
    match t with
    | .Arithmetic => (splitWs line).get? 0
    | .Push | .Pop | .Label | .Goto | .If | .Function | .Call => (splitWs line).get? 1
    | .Return => none

/-- Outcome of a fallible parsing step: a value, a recoverable error
(Rust Result::Err), or a process-aborting panic. -/
inductive PResult (α : Type)
  | ok (a : α)
  | err
  | panic
deriving DecidableEq, Repr

/-- Digit-sequence evaluation for numeral parsing. -/
def digitsToNat : List Char → Nat → Option Nat
  | [], acc => some acc
  | c :: rest, acc =>
    if c.isDigit then digitsToNat rest (acc * 10 + (c.toNat - 48))
    else none

/-- Rust str::parse::<u16>: a non-empty digit string whose value fits
in 16 bits; anything else is a recoverable parse error. -/
def parseU16 (s : String) : Option Nat :=
  if s.data = [] then none
  else
    match digitsToNat s.data 0 with
    | some n => if n < 65536 then some n else none
    | none => none

/-- Parser.arg2. Missing third token aborts via unwrap (panic); an
unparseable numeral is a recoverable error (the question-mark
operator on parse); non push/pop/function/call kinds hit the
panicking catch-all. -/
def arg2 (line : String) : PResult Nat :=
  match commandType line with
  | none => .panic
  | some t =>
    match t with
    | .Push | .Pop | .Function | .Call =>
      match (splitWs line).get? 2 with
      | none => .panic
      | some tok =>
        match parseU16 tok with
        | none => .err
        | some n => .ok n
    | _ => .panic

/-- Classified command, the data model of the spec (section 3). -/
inductive Command
  | arithmetic (op : String)
  | push (segment : String) (index : Nat)
  | pop (segment : String) (index : Nat)
  | label (name : String)
  | goto (name : String)
  | ifGoto (name : String)
  | function (name : String) (nVars : Nat)
  | call (name : String) (nArgs : Nat)
  | ret
deriving DecidableEq, Repr

/-- The classification of one line as the driver performs it: unwrap
command_type (panicking on an unrecognized keyword), then fetch the
operands demanded by the command kind via arg1/arg2, propagating
their panics and errors. -/
def classifyLine (line : String) : PResult Command :=
  match commandType line with
  | none => .panic
  | some t =>
    match t with
    | .Arithmetic =>
      match arg1 line with
      | none => .panic
      | some op => .ok (.arithmetic op)
    | .Push =>
      match arg1 line with
      | none => .panic
      | some seg =>
        match arg2 line with
        | .panic => .panic
        | .err => .err
        | .ok n => .ok (.push seg n)
    | .Pop =>
      match arg1 line with
      | none => .panic
      | some seg =>
        match arg2 line with
        | .panic => .panic
        | .err => .err
        | .ok n => .ok (.pop seg n)
    | .Label =>
      match arg1 line with
      | none => .panic
      | some l => .ok (.label l)
    | .Goto =>
      match arg1 line with
      | none => .panic
      | some l => .ok (.goto l)
    | .If =>
      match arg1 line with
      | none => .panic
      | some l => .ok (.ifGoto l)
    | .Function =>
      match arg1 line with
      | none => .panic
      | some f =>
        match arg2 line with
        | .panic => .panic
        | .err => .err
        | .ok n => .ok (.function f n)
    | .Return => .ok .ret
    | .Call =>
      match arg1 line with
      | none => .panic
      | some f =>
        match arg2 line with
        | .panic => .panic
        | .err => .err
        | .ok n => .ok (.call f n)

/-! ## Assembly line model -/

/-- Destination of a compute instruction. -/
inductive Dst
  | A
  | D
  | M
deriving DecidableEq, Repr

/-- Computation field; exactly the computations the generator emits. -/
inductive Cmp
  | zero
  | negOne
  | D
  | A
  | M
  | DplusM
  | DminusM
  | MminusD
  | DplusA
  | Dplus1
  | Mplus1
  | Mminus1
  | negM
  | notM
  | DandM
  | DorM
deriving DecidableEq, Repr

/-- Jump condition field. -/
inductive Jmp
  | JMP
  | JNE
  | JEQ
  | JGT
  | JLT
deriving DecidableEq, Repr

/-- Target of an address-load line: a literal or a symbol. -/
inductive Sym
  | num (n : Nat)
  | name (s : String)
deriving DecidableEq, Repr

/-- One emitted assembly line: address load, compute, jump, or label
declaration. -/
inductive Line
  | ai (s : Sym)
  | ci (d : Dst) (c : Cmp)
  | ji (c : Cmp) (j : Jmp)
  | label (s : String)
deriving DecidableEq, Repr

/-! ## Code generator (crate code_writer) -/

/-- Scratch registers of enum VariableRegister. -/
inductive VariableRegister
  | R13
  | R14
  | R15
deriving DecidableEq, Repr

/-- The AsRefStr derivation of VariableRegister. -/
def VariableRegister.asRef : VariableRegister → String
  | .R13 => "R13"
  | .R14 => "R14"
  | .R15 => "R15"

/-- CodeWriter state: current source-unit name, the uniqueness
counter, and the END-label-seen flag. -/
structure CWState where
  vmFilename : String
  uniqIndex : Nat
  hasEndLabel : Bool
deriving DecidableEq, Repr

/-- CodeWriter::get_push_code. -/
def getPushCode : List Line :=
  [.ai (.name "SP"), .ci .A .M, .ci .M .D, .ai (.name "SP"), .ci .M .Mplus1]

/-- CodeWriter::get_pop_code. -/
def getPopCode : List Line :=
  [.ai (.name "SP"), .ci .M .Mminus1, .ci .A .M, .ci .D .M]

/-- CodeWriter::get_load_register_code. -/
def getLoadRegisterCode (register : String) : List Line :=
  [.ai (.name register), .ci .M .D]

/-- The comparison jump mnemonic chosen per opcode in
ArithmeticCommandHelper::get_comparison_command. -/
def comparisonJumpOf (command : String) : Option Jmp :=
  if command = "eq" then some .JEQ
  else if command = "gt" then some .JGT
  else if command = "lt" then some .JLT
  else none

/-- ArithmeticCommandHelper::get_arithmetic_command. -/
def getArithmeticCommand (command : String) (reg : VariableRegister) : Option (List Line) :=
  let operator : Option Cmp :=
    if command = "add" then some .DplusM
    else if command = "sub" then some .DminusM
    else if command = "neg" then some .negM
    else none
  match operator with
  | none => none
  | some op => some [.ai (.name reg.asRef), .ci .D op]

/-- ArithmeticCommandHelper::get_comparison_command: subtract the
scratch register from D, conditionally jump to a TRUE label suffixed
by the uniqueness counter, write the false sentinel 0 or the true
sentinel -1 (65535), converging at a PUSH label with the same
suffix. -/
def getComparisonCommand (command : String) (reg : VariableRegister)
    (comparisonCount : Nat) : Option (List Line) :=
  match comparisonJumpOf command with
  | none => none
  | some j =>
    some [.ai (.name reg.asRef), .ci .D .DminusM,
          .ai (.name ("TRUE" ++ toString comparisonCount)), .ji .D j,
          .ci .D .zero,
          .ai (.name ("PUSH" ++ toString comparisonCount)), .ji .zero .JMP,
          .label ("TRUE" ++ toString comparisonCount),
          .ci .D .negOne,
          .label ("PUSH" ++ toString comparisonCount)]

/-- ArithmeticCommandHelper::get_logical_command. -/
def getLogicalCommand (command : String) (reg : VariableRegister) : Option (List Line) :=
  let operator : Option Cmp :=
    if command = "and" then some .DandM
    else if command = "or" then some .DorM
    else if command = "not" then some .notM
    else none
  match operator with
  | none => none
  | some op => some [.ai (.name reg.asRef), .ci .D op]

/-- The helper-local opcode groups of helper/arithmetic.rs. -/
def helperArithmeticCommands : List String := ["add", "sub", "neg"]

/-- Comparison opcodes handled by the helper. -/
def helperComparisonCommands : List String := ["eq", "gt", "lt"]

/-- Logical opcodes handled by the helper. -/
def helperLogicalCommands : List String := ["and", "or", "not"]

/-- ArithmeticCommandHelper::get_command: dispatch by exact opcode
membership; an unknown opcode panics (none). -/
def getCommand (command : String) (reg : VariableRegister)
    (comparisonCount : Nat) : Option (List Line) :=
  if helperArithmeticCommands.any (fun c => c = command) then
    getArithmeticCommand command reg
  else if helperComparisonCommands.any (fun c => c = command) then
    getComparisonCommand command reg comparisonCount
  else if helperLogicalCommands.any (fun c => c = command) then
    getLogicalCommand command reg
  else none

/-- CodeWriter::write_arithmetic: pop the top operand into D, park it
in R13, pop the second operand unless the opcode is unary, apply the
helper-selected computation, push the result. -/
def writeArithmetic (uniqIndex : Nat) (command : String) : Option (List Line) :=
  let isSingleOperand := command = "neg" ∨ command = "not"
  match getCommand command .R13 uniqIndex with
  | none => none
  | some opLines =>
    some (getPopCode ++ getLoadRegisterCode (VariableRegister.asRef .R13)
      ++ (if isSingleOperand then [] else getPopCode)
      ++ opLines ++ getPushCode)

/-- The static-segment symbol: source-unit name, a dot, the index. -/
def staticSymbol (vmFilename : String) (index : Nat) : String :=
  vmFilename ++ "." ++ toString index

/-- The segment_symbol_asm match of CodeWriter::get_segment_code,
arm for arm (the temp and comment-only parts contribute no line);
an unmatched segment/index pair is None and the enclosing unwrap
panics. -/
def segmentSymbolLines (vmFilename : String) (segment : String) (index : Nat) :
    Option (List Line) :=
  if segment = "local" then some [.ai (.name "LCL")]
  else if segment = "argument" then some [.ai (.name "ARG")]
  else if segment = "this" then some [.ai (.name "THIS")]
  else if segment = "that" then some [.ai (.name "THAT")]
  else if segment = "temp" then some []
  else if segment = "constant" then some [.ai (.num index)]
  else if segment = "pointer" ∧ index = 0 then some [.ai (.name "THIS")]
  else if segment = "pointer" ∧ index = 1 then some [.ai (.name "THAT")]
  else if segment = "static" then some [.ai (.name (staticSymbol vmFilename index))]
  else none

/-- CodeWriter::get_segment_code: the push/pop lowering per segment.
Commands other than Push and Pop hit the panicking catch-all. The
temp base offset index_for_temp_segment = index + 5 is computed in
u16 by the source, so it wraps modulo 2^16 (a release build; a debug
build aborts on the overflow instead of emitting anything). -/
def getSegmentCode (vmFilename : String) (command : CommandType)
    (segment : String) (index : Nat) : Option (List Line) :=
  let indexForTemp := (index + 5) % 65536
  let reg := VariableRegister.asRef .R13
  let symAsm := segmentSymbolLines vmFilename segment index
  match command with
  | .Push =>
    if segment = "constant" then
      symAsm.map (fun s => s ++ [.ci .D .A] ++ getPushCode)
    else if segment = "temp" then
      symAsm.map (fun s => s ++ [.ai (.num indexForTemp), .ci .D .M] ++ getPushCode)
    else if segment = "pointer" ∨ segment = "static" then
      symAsm.map (fun s => s ++ [.ci .D .M] ++ getPushCode)
    else
      symAsm.map (fun s =>
        [.ai (.num index), .ci .D .A] ++ s ++ [.ci .A .DplusM, .ci .D .M] ++ getPushCode)
  | .Pop =>
    if segment = "static" then
      symAsm.map (fun s => getPopCode ++ s ++ [.ci .M .D])
    else if segment = "temp" then
      symAsm.map (fun s =>
        s ++ [.ai (.num indexForTemp), .ci .D .A, .ai (.name reg), .ci .M .D]
          ++ getPopCode ++ [.ai (.name reg), .ci .A .M, .ci .M .D])
    else if segment = "pointer" then
      symAsm.map (fun s =>
        s ++ [.ci .D .A, .ai (.name reg), .ci .M .D]
          ++ getPopCode ++ [.ai (.name reg), .ci .A .M, .ci .M .D])
    else
      symAsm.map (fun s =>
        [.ai (.num index), .ci .D .A] ++ s
          ++ [.ci .D .DplusM, .ai (.name reg), .ci .M .D]
          ++ getPopCode ++ [.ai (.name reg), .ci .A .M, .ci .M .D])
  | _ => none

/-- CodeWriter::get_goto_code. -/
def getGotoCode (l : String) : List Line :=
  [.ai (.name l), .ji .zero .JMP]

/-- CodeWriter::get_if_code: pop into D, jump when non-zero. -/
def getIfCode (l : String) : List Line :=
  getPopCode ++ [.ai (.name l), .ji .D .JNE]

/-- CodeWriter::get_function_code: entry label, then one zero-push
per local variable. -/
def getFunctionCode (functionName : String) (nVars : Nat) : List Line :=
  [.label functionName]
    ++ (List.replicate nVars ([.ai (.num 0), .ci .D .A] ++ getPushCode)).flatten

/-- The call-site return-address symbol of CodeWriter::get_call_code. -/
def returnAddressSymbol (functionName : String) (uniqIndex : Nat) : String :=
  functionName ++ "$ret." ++ toString uniqIndex

/-- CodeWriter::get_call_code: push the return-address symbol, push
the four saved base registers, reposition ARG to SP-5-nArgs,
reposition LCL to SP, jump to the callee, declare the return-address
label. -/
def getCallCode (functionName : String) (nArgs : Nat) (uniqIndex : Nat) : List Line :=
  let retSym := returnAddressSymbol functionName uniqIndex
  let pushSegment := fun (s : String) => [.ai (.name s), .ci .D .M] ++ getPushCode
  [.ai (.name retSym), .ci .D .A] ++ getPushCode
    ++ pushSegment "LCL" ++ pushSegment "ARG"
    ++ pushSegment "THIS" ++ pushSegment "THAT"
    ++ [.ai (.num 5), .ci .D .A, .ai (.num nArgs), .ci .D .DplusA,
        .ai (.name "SP"), .ci .D .MminusD, .ai (.name "ARG"), .ci .M .D]
    ++ [.ai (.name "SP"), .ci .D .M, .ai (.name "LCL"), .ci .M .D]
    ++ getGotoCode functionName
    ++ [.label retSym]

/-- CodeWriter::get_return_code. -/
def getReturnCode : List Line :=
  [.ai (.name "LCL"), .ci .D .M, .ai (.name "frame"), .ci .M .D,
   .ai (.num 5), .ci .D .A, .ai (.name "frame"), .ci .A .MminusD, .ci .D .M,
   .ai (.name "retAddr"), .ci .M .D]
    ++ getPopCode
    ++ [.ai (.name "ARG"), .ci .A .M, .ci .M .D, .ci .D .A,
        .ai (.name "SP"), .ci .M .Dplus1,
        .ai (.name "frame"), .ci .A .Mminus1, .ci .D .M, .ai (.name "THAT"), .ci .M .D,
        .ai (.num 2), .ci .D .A, .ai (.name "frame"), .ci .A .MminusD, .ci .D .M,
        .ai (.name "THIS"), .ci .M .D,
        .ai (.num 3), .ci .D .A, .ai (.name "frame"), .ci .A .MminusD, .ci .D .M,
        .ai (.name "ARG"), .ci .M .D,
        .ai (.num 4), .ci .D .A, .ai (.name "frame"), .ci .A .MminusD, .ci .D .M,
        .ai (.name "LCL"), .ci .M .D,
        .ai (.name "retAddr"), .ci .A .M, .ji .zero .JMP]

/-- CodeWriter::get_bootstrap_code: set SP to 256 and the four base
registers to 300/400/500/600, then call Sys.init with zero arguments
(the uniqueness counter is 0 at construction). -/
def getBootstrapCode : List Line :=
  [.ai (.num 256), .ci .D .A, .ai (.name "SP"), .ci .M .D,
   .ai (.num 300), .ci .D .A, .ai (.name "LCL"), .ci .M .D,
   .ai (.num 400), .ci .D .A, .ai (.name "ARG"), .ci .M .D,
   .ai (.num 500), .ci .D .A, .ai (.name "THIS"), .ci .M .D,
   .ai (.num 600), .ci .D .A, .ai (.name "THAT"), .ci .M .D]
    ++ getCallCode "Sys.init" 0 0

/-- CodeWriter::get_infinity_loop_code: the END label declaration is
suppressed when the user program already declared it, the self-jump
is emitted unconditionally. -/
def getInfinityLoopCode (hasEndLabel : Bool) : List Line :=
  (if hasEndLabel then [] else [.label "END"])
    ++ [.ai (.name "END"), .ji .zero .JMP]

/-- The per-command emission dispatch of the driver loop in main.rs,
including the END-flag update of CodeWriter::write_label. Panicking
lowerings yield none. -/
def emitCommand (st : CWState) : Command → Option (CWState × List Line)
  | .arithmetic op => (writeArithmetic st.uniqIndex op).map (fun l => (st, l))
  | .push seg idx => (getSegmentCode st.vmFilename .Push seg idx).map (fun l => (st, l))
  | .pop seg idx => (getSegmentCode st.vmFilename .Pop seg idx).map (fun l => (st, l))
  | .label name =>
    some ({ st with hasEndLabel := st.hasEndLabel || (name == "END") }, [.label name])
  | .goto name => some (st, getGotoCode name)
  | .ifGoto name => some (st, getIfCode name)
  | .function name n => some (st, getFunctionCode name n)
  | .call name n => some (st, getCallCode name n st.uniqIndex)
  | .ret => some (st, getReturnCode)

/-- The driver's inner loop over one source unit: emit each command
with the current counter, incrementing the counter after every
command except the unit's last (the source breaks out of the loop
before the increment when has_more_lines is false). The counter
incremental_uniq_index is a u16 in the source, so the increment
wraps modulo 2^16 (a release build; a debug build aborts on the
overflowing increment). -/
def runUnit (st : CWState) : List Command → Option (CWState × List Line)
  | [] => some (st, [])
  | [c] => emitCommand st c
  | c :: c2 :: rest =>
    match emitCommand st c with
    | none => none
    | some (st1, out) =>
      match runUnit { st1 with uniqIndex := (st1.uniqIndex + 1) % 65536 } (c2 :: rest) with
      | none => none
      | some (st2, out2) => some (st2, out ++ out2)

/-- The counter values the driver's loop assigns to the successive
commands of one unit, by the same recursion as runUnit, including
the u16 wrap of the increment. -/
def unitCounters (c0 : Nat) : List Command → List Nat
  | [] => []
  | [_] => [c0]
  | _ :: c2 :: rest => c0 :: unitCounters ((c0 + 1) % 65536) (c2 :: rest)

/-- The driver's outer loop: set the source-unit name, then drain the
unit; counter and END flag persist across units. -/
def runUnits (st : CWState) : List (String × List Command) → Option (CWState × List Line)
  | [] => some (st, [])
  | (name, cmds) :: rest =>
    match runUnit { st with vmFilename := name } cmds with
    | none => none
    | some (st1, out) =>
      match runUnits st1 rest with
      | none => none
      | some (st2, out2) => some (st2, out ++ out2)

/-- CodeWriter::new: counter 0, flag unset, name taken from the
output path stem; the bootstrap is written at construction. -/
def initState (outputName : String) : CWState :=
  { vmFilename := outputName, uniqIndex := 0, hasEndLabel := false }

/-- One whole translation run: bootstrap at construction, the units
in order, then close appends the terminating loop. -/
def translateRun (outputName : String) (units : List (String × List Command)) :
    Option (List Line) :=
  match runUnits (initState outputName) units with
  | none => none
  | some (st, out) =>
    some (getBootstrapCode ++ out ++ getInfinityLoopCode st.hasEndLabel)

/-- Whether a command is a label command declaring the reserved
terminal label name, the condition CodeWriter::write_label checks. -/
def isEndLabelCommand : Command → Bool
  | .label n => n == "END"
  | _ => false

/-! ## Target machine semantics -/

/-- Machine state of the 16-bit target: memory, the address and data
registers, and the program counter. Word values are naturals kept
below 65536 by every ALU write. -/
structure Mach where
  ram : Nat → Nat
  a : Nat
  d : Nat
  pc : Nat

/-- Two's-complement subtraction on 16-bit words. -/
def sub16 (x y : Nat) : Nat := (x + 65536 - y % 65536) % 65536

/-- Evaluate a computation field; m is the current memory word
addressed by the address register. -/
def evalCmp (c : Cmp) (d a m : Nat) : Nat :=
  match c with
  | .zero => 0
  | .negOne => 65535
  | .D => d
  | .A => a
  | .M => m
  | .DplusM => (d + m) % 65536
  | .DminusM => sub16 d m
  | .MminusD => sub16 m d
  | .DplusA => (d + a) % 65536
  | .Dplus1 => (d + 1) % 65536
  | .Mplus1 => (m + 1) % 65536
  | .Mminus1 => sub16 m 1
  | .negM => sub16 0 m
  | .notM => 65535 - m % 65536
  | .DandM => Nat.land d m
  | .DorM => Nat.lor d m

/-- Jump condition on the computed value, reading the sign bit of the
two's-complement word. -/
def jumpTaken : Jmp → Nat → Prop
  | .JMP, _ => True
  | .JNE, v => v ≠ 0
  | .JEQ, v => v = 0
  | .JGT, v => v ≠ 0 ∧ v < 32768
  | .JLT, v => 32768 ≤ v

instance (j : Jmp) (v : Nat) : Decidable (jumpTaken j v) :=
  match j with
  | .JMP => .isTrue trivial
  | .JNE => inferInstanceAs (Decidable (v ≠ 0))
  | .JEQ => inferInstanceAs (Decidable (v = 0))
  | .JGT => inferInstanceAs (Decidable (v ≠ 0 ∧ v < 32768))
  | .JLT => inferInstanceAs (Decidable (32768 ≤ v))

/-- An assembled instruction: all symbols resolved to numbers, label
declarations removed. -/
inductive MInstr
  | ai (n : Nat)
  | ci (d : Dst) (c : Cmp)
  | ji (c : Cmp) (j : Jmp)
deriving DecidableEq, Repr

/-- Write the computed value to the destination register or memory,
advancing the program counter. -/
def writeDst (dst : Dst) (v : Nat) (m : Mach) : Mach :=
  match dst with
  | .A => { m with a := v, pc := m.pc + 1 }
  | .D => { m with d := v, pc := m.pc + 1 }
  | .M => { m with ram := fun i => if i = m.a then v else m.ram i, pc := m.pc + 1 }

/-- Execute one instruction. -/
def stepInstr (i : MInstr) (m : Mach) : Mach :=
  match i with
  | .ai n => { m with a := n, pc := m.pc + 1 }
  | .ci d c => writeDst d (evalCmp c m.d m.a (m.ram m.a)) m
  | .ji c j =>
    if jumpTaken j (evalCmp c m.d m.a (m.ram m.a)) then { m with pc := m.a }
    else { m with pc := m.pc + 1 }

/-- Run the program for the given amount of fuel, halting when the
program counter leaves the program. -/
def run (prog : List MInstr) : Nat → Mach → Mach
  | 0, m => m
  | n + 1, m =>
    match prog[m.pc]? with
    | none => m
    | some i => run prog n (stepInstr i m)

/-! ## Assembler -/

/-- Addresses of the label declarations, counting only real
instructions. -/
def labelAddrs : List Line → Nat → List (String × Nat)
  | [], _ => []
  | .label s :: rest, pc => (s, pc) :: labelAddrs rest pc
  | _ :: rest, pc => labelAddrs rest (pc + 1)

/-- First-match lookup in the label table. -/
def lookupSym : List (String × Nat) → String → Option Nat
  | [], _ => none
  | (n, v) :: rest, s => if n = s then some v else lookupSym rest s

/-- The target's predefined register symbols. -/
def builtinSymbols (s : String) : Option Nat :=
  if s = "SP" then some 0
  else if s = "LCL" then some 1
  else if s = "ARG" then some 2
  else if s = "THIS" then some 3
  else if s = "THAT" then some 4
  else if s = "R13" then some 13
  else if s = "R14" then some 14
  else if s = "R15" then some 15
  else none

/-- Resolve an address-load target: label table first, then the
predefined registers, then the assembler's variable allocation σ. -/
def resolveSym (tbl : List (String × Nat)) (σ : String → Nat) : Sym → Nat
  | .num n => n
  | .name s =>
    match lookupSym tbl s with
    | some v => v
    | none =>
      match builtinSymbols s with
      | some v => v
      | none => σ s

/-- Second assembler pass: drop labels, resolve symbols. -/
def assembleLines (tbl : List (String × Nat)) (σ : String → Nat) : List Line → List MInstr
  | [] => []
  | .label _ :: rest => assembleLines tbl σ rest
  | .ai s :: rest => .ai (resolveSym tbl σ s) :: assembleLines tbl σ rest
  | .ci d c :: rest => .ci d c :: assembleLines tbl σ rest
  | .ji c j :: rest => .ji c j :: assembleLines tbl σ rest

/-- Assemble an emitted fragment under variable allocation σ. -/
def assemble (σ : String → Nat) (lines : List Line) : List MInstr :=
  assembleLines (labelAddrs lines 0) σ lines

/-! ## Supporting lemmas -/

lemma data_append (a b : String) : (a ++ b).data = a.data ++ b.data := rfl

lemma str_eq_of_data_eq (s t : String) (h : s.data = t.data) : s = t := by
  cases s
  cases t
  exact congrArg String.mk h

lemma ne_of_data_head (s t : String) (h : s.data.head? ≠ t.data.head?) : s ≠ t :=
  fun he => h (by rw [he])

lemma ne_of_length (s t : String) (h : s.length ≠ t.length) : s ≠ t :=
  fun he => h (by rw [he])

lemma true_ne_push (u v : String) : ("TRUE" ++ u) ≠ ("PUSH" ++ v) := by
  apply ne_of_data_head
  simp [data_append]

lemma true_ne_sp (u : String) : ("TRUE" ++ u) ≠ "SP" := by
  apply ne_of_data_head
  simp [data_append]

lemma push_ne_sp (u : String) : ("PUSH" ++ u) ≠ "SP" := by
  apply ne_of_data_head
  simp [data_append]

lemma true_ne_r13 (u : String) : ("TRUE" ++ u) ≠ "R13" := by
  apply ne_of_data_head
  simp [data_append]

lemma push_ne_r13 (u : String) : ("PUSH" ++ u) ≠ "R13" := by
  apply ne_of_data_head
  simp [data_append]

lemma retSym_ne_short (f : String) (k : Nat) (t : String) (ht : t.length < 5) :
    returnAddressSymbol f k ≠ t := by
  apply ne_of_length
  have h5 : "$ret.".length = 5 := rfl
  simp [returnAddressSymbol]
  omega

lemma retSym_ne_base (f : String) (k : Nat) : returnAddressSymbol f k ≠ f := by
  apply ne_of_length
  have h5 : "$ret.".length = 5 := rfl
  simp [returnAddressSymbol]
  omega

lemma jumpTaken_JMP (v : Nat) : jumpTaken .JMP v := trivial

/-! ## Claims about the classifier and segment addressing -/

/-- C4: the claim says every trimmed, non-empty, non-comment line is
classified into a Command or a recoverable SyntaxError, with arity
mismatches and unrecognized keywords never aborting the process. The
code has no SyntaxError value at all: a missing operand panics
through Option unwrap (first two conjuncts), an unrecognized keyword
makes command_type yield no kind and the driver's unwrap panics
(third conjunct), and extra operands are silently ignored rather
than rejected (fourth conjunct); well-formed lines do classify
(last conjunct). -/
theorem C4_classifier_panics_on_malformed_input :
    classifyLine "push constant" = PResult.panic ∧
    classifyLine "label" = PResult.panic ∧
    classifyLine "frobnicate 1" = PResult.panic ∧
    classifyLine "add 1 2" = PResult.ok (Command.arithmetic "add") ∧
    classifyLine "push constant 7" = PResult.ok (Command.push "constant" 7) := by
  refine ⟨?_, ?_, ?_, ?_, ?_⟩ <;> decide

/-- C5: pointer index 0 aliases the this base register and index 1
the that base register, but any other index makes the generator
panic through Option unwrap (modelled as none) instead of returning
a recoverable UnsupportedSegmentError. -/
theorem C5_pointer_segment_aliases_and_bad_index :
    (∀ f idx, 2 ≤ idx →
      getSegmentCode f CommandType.Push "pointer" idx = none ∧
      getSegmentCode f CommandType.Pop "pointer" idx = none) ∧
    (∀ f,
      getSegmentCode f CommandType.Push "pointer" 0 =
        some ([.ai (.name "THIS"), .ci .D .M] ++ getPushCode) ∧
      getSegmentCode f CommandType.Push "pointer" 1 =
        some ([.ai (.name "THAT"), .ci .D .M] ++ getPushCode)) := by
  constructor
  · intro f idx h
    have h0 : ¬ (idx = 0) := by omega
    have h1 : ¬ (idx = 1) := by omega
    constructor <;> simp [getSegmentCode, segmentSymbolLines, h0, h1]
  · intro f
    constructor <;> simp [getSegmentCode, segmentSymbolLines, getPushCode]

/-- Witness for C5 at concrete inputs. -/
theorem C5_witness :
    getSegmentCode "F" CommandType.Push "pointer" 2 = none ∧
    getSegmentCode "F" CommandType.Push "pointer" 0 =
      some ([.ai (.name "THIS"), .ci .D .M] ++ getPushCode) :=
  ⟨(C5_pointer_segment_aliases_and_bad_index.1 "F" 2 (by omega)).1,
   (C5_pointer_segment_aliases_and_bad_index.2 "F").1⟩

/-- C6: a static access at index i emits the symbol built from the
current source-unit name joined to i by a dot, and two distinct
source-unit names always yield distinct symbols for the same
index. -/
theorem C6_static_symbols_distinct_across_units :
    (∀ f idx, getSegmentCode f CommandType.Push "static" idx =
      some ([.ai (.name (staticSymbol f idx)), .ci .D .M] ++ getPushCode)) ∧
    (∀ f1 f2 idx, f1 ≠ f2 → staticSymbol f1 idx ≠ staticSymbol f2 idx) := by
  constructor
  · intro f idx
    simp [getSegmentCode, segmentSymbolLines, getPushCode]
  · intro f1 f2 idx hne he
    apply hne
    apply str_eq_of_data_eq
    have h := congrArg String.data he
    simp only [staticSymbol, data_append] at h
    exact List.append_cancel_right (List.append_cancel_right h)

/-- Witness for C6 at concrete inputs. -/
theorem C6_witness :
    staticSymbol "A" 0 ≠ staticSymbol "B" 0 ∧
    getSegmentCode "A" CommandType.Push "static" 0 =
      some ([.ai (.name (staticSymbol "A" 0)), .ci .D .M] ++ getPushCode) :=
  ⟨C6_static_symbols_distinct_across_units.2 "A" "B" 0 (by decide),
   C6_static_symbols_distinct_across_units.1 "A" 0⟩

/-! ## Driver-state lemmas -/

lemma emitCommand_state (st : CWState) (c : Command) (st1 : CWState) (out : List Line)
    (h : emitCommand st c = some (st1, out)) :
    st1.uniqIndex = st.uniqIndex ∧ st1.vmFilename = st.vmFilename ∧
    st1.hasEndLabel = (st.hasEndLabel || isEndLabelCommand c) := by
  cases c <;>
    simp only [emitCommand, Option.map_eq_some', Option.some.injEq, Prod.mk.injEq] at h <;>
    first
      | (obtain ⟨rfl, rfl⟩ := h; simp [isEndLabelCommand])
      | (obtain ⟨l, hl, rfl, rfl⟩ := h; simp [isEndLabelCommand])

lemma runUnit_state : ∀ (cmds : List Command) (st st' : CWState) (out : List Line),
    runUnit st cmds = some (st', out) →
    st'.vmFilename = st.vmFilename ∧
    st'.hasEndLabel = (st.hasEndLabel || cmds.any (fun c => isEndLabelCommand c))
  | [], st, st', out => by
    intro h
    simp only [runUnit, Option.some.injEq, Prod.mk.injEq] at h
    obtain ⟨rfl, rfl⟩ := h
    simp
  | [c], st, st', out => by
    intro h
    simp only [runUnit] at h
    have h1 := emitCommand_state st c st' out h
    exact ⟨h1.2.1, by simpa using h1.2.2⟩
  | c :: c2 :: rest, st, st', out => by
    intro h
    simp only [runUnit] at h
    cases he : emitCommand st c with
    | none => rw [he] at h; simp at h
    | some p =>
      obtain ⟨st1, out1⟩ := p
      rw [he] at h
      dsimp only at h
      cases hr : runUnit { st1 with uniqIndex := (st1.uniqIndex + 1) % 65536 }
          (c2 :: rest) with
      | none => rw [hr] at h; simp at h
      | some q =>
        obtain ⟨st2, out2⟩ := q
        rw [hr] at h
        simp only [Option.some.injEq, Prod.mk.injEq] at h
        obtain ⟨rfl, rfl⟩ := h
        have h1 := emitCommand_state st c st1 out1 he
        have h2 := runUnit_state (c2 :: rest) _ _ _ hr
        refine ⟨by simp [h2.1, h1.2.1], ?_⟩
        have h3 := h2.2
        simp only [CWState.hasEndLabel] at h3
        simp [h3, h1.2.2, List.any_cons, Bool.or_assoc]

/-- The counter after a drained unit: its last command's value, that
is the start value advanced len - 1 times through the wrapping u16
increment (the driver skips the increment after the last command). -/
lemma runUnit_uniq : ∀ (cmds : List Command) (st st' : CWState) (out : List Line),
    runUnit st cmds = some (st', out) → st.uniqIndex < 65536 →
    st'.uniqIndex = (st.uniqIndex + (cmds.length - 1)) % 65536
  | [], st, st', out => by
    intro h hb
    simp only [runUnit, Option.some.injEq, Prod.mk.injEq] at h
    obtain ⟨rfl, rfl⟩ := h
    simp [Nat.mod_eq_of_lt hb]
  | [c], st, st', out => by
    intro h hb
    simp only [runUnit] at h
    have h1 := emitCommand_state st c st' out h
    simp [h1.1, Nat.mod_eq_of_lt hb]
  | c :: c2 :: rest, st, st', out => by
    intro h hb
    simp only [runUnit] at h
    cases he : emitCommand st c with
    | none => rw [he] at h; simp at h
    | some p =>
      obtain ⟨st1, out1⟩ := p
      rw [he] at h
      dsimp only at h
      cases hr : runUnit { st1 with uniqIndex := (st1.uniqIndex + 1) % 65536 }
          (c2 :: rest) with
      | none => rw [hr] at h; simp at h
      | some q =>
        obtain ⟨st2, out2⟩ := q
        rw [hr] at h
        simp only [Option.some.injEq, Prod.mk.injEq] at h
        obtain ⟨rfl, rfl⟩ := h
        have h1 := emitCommand_state st c st1 out1 he
        have h2 := runUnit_uniq (c2 :: rest) _ _ _ hr
          (by simp only [CWState.uniqIndex]; omega)
        simp only [CWState.uniqIndex] at h2
        rw [h2, h1.1]
        simp only [List.length_cons]
        omega

lemma runUnits_state : ∀ (units : List (String × List Command)) (st st' : CWState)
    (out : List Line), runUnits st units = some (st', out) →
    st'.hasEndLabel =
      (st.hasEndLabel || units.any (fun u => u.2.any (fun c => isEndLabelCommand c)))
  | [], st, st', out => by
    intro h
    simp only [runUnits, Option.some.injEq, Prod.mk.injEq] at h
    obtain ⟨rfl, rfl⟩ := h
    simp
  | (name, cmds) :: rest, st, st', out => by
    intro h
    simp only [runUnits] at h
    cases hu : runUnit { st with vmFilename := name } cmds with
    | none => rw [hu] at h; simp at h
    | some p =>
      obtain ⟨st1, out1⟩ := p
      rw [hu] at h
      dsimp only at h
      cases hr : runUnits st1 rest with
      | none => rw [hr] at h; simp at h
      | some q =>
        obtain ⟨st2, out2⟩ := q
        rw [hr] at h
        simp only [Option.some.injEq, Prod.mk.injEq] at h
        obtain ⟨rfl, rfl⟩ := h
        have h1 := runUnit_state cmds _ _ _ hu
        have h2 := runUnits_state rest _ _ _ hr
        rw [h2, h1.2]
        simp [List.any_cons, Bool.or_assoc]

lemma range'_map_mod_congr : ∀ (n a b : Nat), a % 65536 = b % 65536 →
    (List.range' a n).map (· % 65536) = (List.range' b n).map (· % 65536)
  | 0, _, _, _ => rfl
  | n + 1, a, b, h => by
    simp only [List.range', List.map_cons, List.cons.injEq]
    exact ⟨h, range'_map_mod_congr n (a + 1) (b + 1) (by omega)⟩

lemma unitCounters_eq_range' : ∀ (cmds : List Command) (c0 : Nat), c0 < 65536 →
    unitCounters c0 cmds = (List.range' c0 cmds.length).map (· % 65536)
  | [], _, _ => rfl
  | [c], c0, hb => by
    simp [unitCounters, List.range', Nat.mod_eq_of_lt hb]
  | c :: c2 :: rest, c0, hb => by
    have ih := unitCounters_eq_range' (c2 :: rest) ((c0 + 1) % 65536)
      (Nat.mod_lt _ (by omega))
    have hc : (List.range' ((c0 + 1) % 65536) (c2 :: rest).length).map (· % 65536) =
        (List.range' (c0 + 1) (c2 :: rest).length).map (· % 65536) :=
      range'_map_mod_congr _ _ _ (by omega)
    simp [unitCounters, ih, hc, List.range', Nat.mod_eq_of_lt hb]
    exact range'_map_mod_congr rest.length _ _ (by omega)

/-! ## Claims about the uniqueness counter and the terminal label -/

/-- C1 counterexample: the claim asserts the label suffix never
repeats across source-unit boundaries, but the driver breaks out of
its loop before the counter increment when the unit has no further
lines, so the last command of one unit and the first command of the
next share a counter value. Translating unit A containing only eq
and unit B containing only eq emits the TRUE0 label declaration
twice in one run. -/
theorem C1_counterexample_cross_unit_repeat :
    ((translateRun "Prog" [("A", [Command.arithmetic "eq"]),
        ("B", [Command.arithmetic "eq"])]).getD []).count (Line.label "TRUE0") = 2 := by
  decide

/-- C1 amended: within one source unit the driver assigns the
counter values c0, (c0+1) mod 2^16, (c0+2) mod 2^16, ... since the
u16 counter wraps; for an in-range start these are pairwise distinct
(hence distinct label suffixes within the unit) as long as the unit
holds at most 2^16 commands (beyond that a release build repeats
suffixes and a debug build aborts). The counter after a unit equals
the value its last command received, so the first command of the
next unit reuses that suffix. -/
theorem C1_amended_unique_within_unit :
    (∀ c0 (cmds : List Command), c0 < 65536 → cmds.length ≤ 65536 →
      unitCounters c0 cmds = (List.range' c0 cmds.length).map (· % 65536) ∧
      (unitCounters c0 cmds).Nodup) ∧
    (∀ st cmds st' out, runUnit st cmds = some (st', out) →
      st.uniqIndex < 65536 →
      st'.uniqIndex = (st.uniqIndex + (cmds.length - 1)) % 65536) := by
  constructor
  · intro c0 cmds hb hlen
    refine ⟨unitCounters_eq_range' cmds c0 hb, ?_⟩
    rw [unitCounters_eq_range' cmds c0 hb]
    refine (List.nodup_range' c0 cmds.length 1 one_pos).map_on ?_
    intro x hx y hy hxy
    rw [List.mem_range'_1] at hx hy
    have hxy2 : x % 65536 = y % 65536 := hxy
    omega
  · intro st cmds st' out h hb
    exact runUnit_uniq cmds st st' out h hb

/-- Witness for C1 amended at a concrete two-command unit. -/
theorem C1_amended_witness :
    (unitCounters 0 [Command.goto "L", Command.goto "L"]).Nodup ∧
    (CWState.mk "P" 1 false).uniqIndex = (0 + (2 - 1)) % 65536 := by
  constructor
  · exact (C1_amended_unique_within_unit.1 0 _ (by decide) (by decide)).2
  · exact C1_amended_unique_within_unit.2 (initState "P") [Command.goto "L", Command.goto "L"]
      (CWState.mk "P" 1 false)
      [Line.ai (Sym.name "L"), Line.ji Cmp.zero Jmp.JMP,
       Line.ai (Sym.name "L"), Line.ji Cmp.zero Jmp.JMP] (by decide) (by decide)

/-- C9: close always appends the unconditional self-jump at the
reserved terminal label, and the label declaration itself appears in
the closing fragment exactly when no label command with the reserved
name END was translated earlier in the run. -/
theorem C9_close_terminal_label :
    ∀ name units st' out,
      runUnits (initState name) units = some (st', out) →
      (translateRun name units =
        some (getBootstrapCode ++ out ++ getInfinityLoopCode st'.hasEndLabel)) ∧
      ((Line.label "END") ∈ getInfinityLoopCode st'.hasEndLabel ↔
        units.any (fun u => u.2.any (fun c => isEndLabelCommand c)) = false) ∧
      (∃ pre, getInfinityLoopCode st'.hasEndLabel =
        pre ++ [.ai (.name "END"), .ji .zero .JMP]) := by
  intro name units st' out h
  have hf := runUnits_state units _ _ _ h
  simp only [initState, Bool.false_or] at hf
  refine ⟨by simp [translateRun, h], ?_, ?_⟩
  · rw [hf]
    cases hB : units.any (fun u => u.2.any (fun c => isEndLabelCommand c)) <;>
      simp [getInfinityLoopCode]
  · cases st'.hasEndLabel
    · exact ⟨[.label "END"], rfl⟩
    · exact ⟨[], rfl⟩

/-- Witness for C9 on a run whose single unit declares the END label. -/
theorem C9_witness :
    translateRun "P" [("A", [Command.label "END"])] =
      some (getBootstrapCode ++ [Line.label "END"] ++
        getInfinityLoopCode (CWState.mk "A" 0 true).hasEndLabel) ∧
    ∃ pre, getInfinityLoopCode (CWState.mk "A" 0 true).hasEndLabel =
      pre ++ [.ai (.name "END"), .ji .zero .JMP] := by
  have h : runUnits (initState "P") [("A", [Command.label "END"])] =
      some (CWState.mk "A" 0 true, [Line.label "END"]) := by decide
  have hC := C9_close_terminal_label "P" _ _ _ h
  exact ⟨hC.1, hC.2.2⟩

set_option maxRecDepth 10000 in
set_option maxHeartbeats 1000000 in
/-- C10: the bootstrap emitted at generator construction sets the
stack pointer to 256 and the four segment base registers local,
argument, this, that to 300, 400, 500, 600 in that order, before the
zero-argument call to Sys.init; and every translation run's output
starts with this bootstrap fragment. -/
theorem C10_bootstrap_initializes_registers :
    (getBootstrapCode =
      [.ai (.num 256), .ci .D .A, .ai (.name "SP"), .ci .M .D,
       .ai (.num 300), .ci .D .A, .ai (.name "LCL"), .ci .M .D,
       .ai (.num 400), .ci .D .A, .ai (.name "ARG"), .ci .M .D,
       .ai (.num 500), .ci .D .A, .ai (.name "THIS"), .ci .M .D,
       .ai (.num 600), .ci .D .A, .ai (.name "THAT"), .ci .M .D]
        ++ getCallCode "Sys.init" 0 0) ∧
    (∀ σ (ram : Nat → Nat) a0 d0,
      (run (assemble σ (getBootstrapCode.take 20)) 20 ⟨ram, a0, d0, 0⟩).ram 0 = 256 ∧
      (run (assemble σ (getBootstrapCode.take 20)) 20 ⟨ram, a0, d0, 0⟩).ram 1 = 300 ∧
      (run (assemble σ (getBootstrapCode.take 20)) 20 ⟨ram, a0, d0, 0⟩).ram 2 = 400 ∧
      (run (assemble σ (getBootstrapCode.take 20)) 20 ⟨ram, a0, d0, 0⟩).ram 3 = 500 ∧
      (run (assemble σ (getBootstrapCode.take 20)) 20 ⟨ram, a0, d0, 0⟩).ram 4 = 600) ∧
    (∀ name units out, translateRun name units = some out →
      ∃ rest, out = getBootstrapCode ++ rest) := by
  refine ⟨rfl, ?_, ?_⟩
  · intro σ ram a0 d0
    have hA : assemble σ (getBootstrapCode.take 20) =
        [.ai 256, .ci .D .A, .ai 0, .ci .M .D,
         .ai 300, .ci .D .A, .ai 1, .ci .M .D,
         .ai 400, .ci .D .A, .ai 2, .ci .M .D,
         .ai 500, .ci .D .A, .ai 3, .ci .M .D,
         .ai 600, .ci .D .A, .ai 4, .ci .M .D] := by
      simp [assemble, getBootstrapCode, getCallCode, getGotoCode, getPushCode,
        labelAddrs, assembleLines, resolveSym, lookupSym, builtinSymbols]
    rw [hA]
    refine ⟨?_, ?_, ?_, ?_, ?_⟩ <;>
      repeat (rw [run]; simp [stepInstr, writeDst, evalCmp])
  · intro name units out h
    cases hu : runUnits (initState name) units with
    | none => rw [translateRun, hu] at h; simp at h
    | some p =>
      obtain ⟨st, outs⟩ := p
      rw [translateRun, hu] at h
      dsimp only at h
      simp only [Option.some.injEq] at h
      exact ⟨outs ++ getInfinityLoopCode st.hasEndLabel, by rw [← h, List.append_assoc]⟩

/-- C10 at a concrete run: the translation of an empty unit list
succeeds and its output starts with the bootstrap code. -/
theorem C10_witness :
    ∃ rest, getBootstrapCode ++ ([] : List Line) ++ getInfinityLoopCode false =
      getBootstrapCode ++ rest :=
  C10_bootstrap_initializes_registers.2.2 "out" []
    (getBootstrapCode ++ ([] : List Line) ++ getInfinityLoopCode false) rfl

set_option maxRecDepth 10000 in
set_option maxHeartbeats 1000000 in
/-- C2: for a stack holding x below the top value y, the lowering of
sub pops y, parks it in the scratch register, pops x, computes the
16-bit difference of x and y in that order, and pushes it: the new
top of stack is x - y, not y - x (x - y exactly whenever y is at
most x). -/
theorem C2_sub_computes_x_minus_y :
    ∀ k L, writeArithmetic k "sub" = some L →
    ∀ σ s x y (ram : Nat → Nat) a0 d0,
      ram 0 = s → ram (s - 2) = x → ram (s - 1) = y → 16 ≤ s → s < 65535 →
      ((run (assemble σ L) 17 ⟨ram, a0, d0, 0⟩).ram 0 = s - 1 ∧
       (run (assemble σ L) 17 ⟨ram, a0, d0, 0⟩).ram (s - 2) = sub16 x y ∧
       (y ≤ x → x < 65536 →
         (run (assemble σ L) 17 ⟨ram, a0, d0, 0⟩).ram (s - 2) = x - y)) := by
  intro k L hL σ s x y ram a0 d0 hsp hx hy h16 hlt
  simp only [writeArithmetic, getCommand, getArithmeticCommand, helperArithmeticCommands,
    helperComparisonCommands, helperLogicalCommands, getPopCode, getLoadRegisterCode,
    getPushCode, VariableRegister.asRef, List.any_cons, List.any_nil] at hL
  simp only [show ("add" = "sub") = False by simp, show ("sub" = "sub") = True by simp,
    if_true, if_false] at hL
  simp at hL
  subst hL
  have hA : assemble σ
      [Line.ai (.name "SP"), .ci .M .Mminus1, .ci .A .M, .ci .D .M,
       .ai (.name "R13"), .ci .M .D,
       .ai (.name "SP"), .ci .M .Mminus1, .ci .A .M, .ci .D .M,
       .ai (.name "R13"), .ci .D .DminusM,
       .ai (.name "SP"), .ci .A .M, .ci .M .D, .ai (.name "SP"), .ci .M .Mplus1] =
      [.ai 0, .ci .M .Mminus1, .ci .A .M, .ci .D .M,
       .ai 13, .ci .M .D,
       .ai 0, .ci .M .Mminus1, .ci .A .M, .ci .D .M,
       .ai 13, .ci .D .DminusM,
       .ai 0, .ci .A .M, .ci .M .D, .ai 0, .ci .M .Mplus1] := by
    simp [assemble, labelAddrs, assembleLines, resolveSym, lookupSym, builtinSymbols]
  rw [hA]
  have hs1 : sub16 s 1 = s - 1 := by unfold sub16; omega
  have hs2 : sub16 (s - 1) 1 = s - 2 := by unfold sub16; omega
  have hs3 : (s - 2 + 1) % 65536 = s - 1 := by omega
  have e1 : ¬ (s - 1 = 0) := by omega
  have e2 : ¬ (s - 2 = 0) := by omega
  have e3 : ¬ (s - 1 = 13) := by omega
  have e4 : ¬ (s - 2 = 13) := by omega
  have e5 : ¬ ((0 : Nat) = 13) := by omega
  have e6 : ¬ ((13 : Nat) = 0) := by omega
  have e7 : ¬ (s - 2 = s - 1) := by omega
  have e8 : ¬ ((0 : Nat) = s - 1) := by omega
  have e9 : ¬ ((0 : Nat) = s - 2) := by omega
  have e10 : ¬ ((13 : Nat) = s - 1) := by omega
  have e11 : ¬ ((13 : Nat) = s - 2) := by omega
  have hval : (run
      [.ai 0, .ci .M .Mminus1, .ci .A .M, .ci .D .M,
       .ai 13, .ci .M .D,
       .ai 0, .ci .M .Mminus1, .ci .A .M, .ci .D .M,
       .ai 13, .ci .D .DminusM,
       .ai 0, .ci .A .M, .ci .M .D, .ai 0, .ci .M .Mplus1] 17
      ⟨ram, a0, d0, 0⟩).ram (s - 2) = sub16 x y := by
    repeat (rw [run]; simp [stepInstr, writeDst, evalCmp, hsp, hs1, hs2, hs3,
      e1, e2, e3, e4, e5, e6, e7, e8, e9, e10, e11, hx, hy])
  refine ⟨?_, hval, fun hyx hxb => by rw [hval]; unfold sub16; omega⟩
  repeat (rw [run]; simp [stepInstr, writeDst, evalCmp, hsp, hs1, hs2, hs3,
    e1, e2, e3, e4, e5, e6, e7, e8, e9, e10, e11, hx, hy])

/-- Witness for C2: push constant 5, push constant 3, sub leaves 2. -/
theorem C2_witness :
    ∃ L, writeArithmetic 0 "sub" = some L ∧
      (run (assemble (fun _ => 0) L) 17
        ⟨fun i => if i = 0 then 258 else if i = 256 then 5 else if i = 257 then 3 else 0,
         0, 0, 0⟩).ram 256 = 2 := by
  refine ⟨_, rfl, ?_⟩
  have h := C2_sub_computes_x_minus_y 0 _ rfl (fun _ => 0) 258 5 3
    (fun i => if i = 0 then 258 else if i = 256 then 5 else if i = 257 then 3 else 0)
    0 0 (by decide) (by decide) (by decide) (by decide) (by decide)
  exact h.2.2 (by decide) (by decide)

set_option maxRecDepth 10000 in
lemma cmp_assemble (σ : String → Nat) (j : Jmp) (k : Nat) :
    assemble σ
      [Line.ai (.name "SP"), .ci .M .Mminus1, .ci .A .M, .ci .D .M,
       .ai (.name "R13"), .ci .M .D,
       .ai (.name "SP"), .ci .M .Mminus1, .ci .A .M, .ci .D .M,
       .ai (.name "R13"), .ci .D .DminusM,
       .ai (.name ("TRUE" ++ toString k)), .ji .D j,
       .ci .D .zero,
       .ai (.name ("PUSH" ++ toString k)), .ji .zero .JMP,
       .label ("TRUE" ++ toString k),
       .ci .D .negOne,
       .label ("PUSH" ++ toString k),
       .ai (.name "SP"), .ci .A .M, .ci .M .D, .ai (.name "SP"), .ci .M .Mplus1] =
      [.ai 0, .ci .M .Mminus1, .ci .A .M, .ci .D .M,
       .ai 13, .ci .M .D,
       .ai 0, .ci .M .Mminus1, .ci .A .M, .ci .D .M,
       .ai 13, .ci .D .DminusM,
       .ai 17, .ji .D j,
       .ci .D .zero,
       .ai 18, .ji .zero .JMP,
       .ci .D .negOne,
       .ai 0, .ci .A .M, .ci .M .D, .ai 0, .ci .M .Mplus1] := by
  simp [assemble, labelAddrs, assembleLines, resolveSym, lookupSym, builtinSymbols,
    true_ne_push, true_ne_sp, push_ne_sp, true_ne_r13, push_ne_r13]

set_option maxRecDepth 10000 in
lemma cmp_prog_sp (j : Jmp) (s x y : Nat) (ram : Nat → Nat) (a0 d0 : Nat)
    (hsp : ram 0 = s) (hx : ram (s - 2) = x) (hy : ram (s - 1) = y)
    (h16 : 16 ≤ s) (hlt : s < 65535) :
    (run [.ai 0, .ci .M .Mminus1, .ci .A .M, .ci .D .M, .ai 13,
      .ci .M .D, .ai 0, .ci .M .Mminus1, .ci .A .M, .ci .D .M,
      .ai 13, .ci .D .DminusM, .ai 17, .ji .D j,
      .ci .D .zero, .ai 18, .ji .zero .JMP, .ci .D .negOne,
      .ai 0, .ci .A .M, .ci .M .D, .ai 0, .ci .M .Mplus1]
      25 ⟨ram, a0, d0, 0⟩).ram 0 = s - 1 := by
  have hs1 : sub16 s 1 = s - 1 := by unfold sub16; omega
  have hs2 : sub16 (s - 1) 1 = s - 2 := by unfold sub16; omega
  have hs3 : (s - 2 + 1) % 65536 = s - 1 := by omega
  have e1 : ¬ (s - 1 = 0) := by omega
  have e2 : ¬ (s - 2 = 0) := by omega
  have e3 : ¬ (s - 1 = 13) := by omega
  have e4 : ¬ (s - 2 = 13) := by omega
  have e5 : ¬ ((0 : Nat) = 13) := by omega
  have e6 : ¬ ((13 : Nat) = 0) := by omega
  have e7 : ¬ (s - 2 = s - 1) := by omega
  have e8 : ¬ ((0 : Nat) = s - 1) := by omega
  have e9 : ¬ ((0 : Nat) = s - 2) := by omega
  have e10 : ¬ ((13 : Nat) = s - 1) := by omega
  have e11 : ¬ ((13 : Nat) = s - 2) := by omega
  by_cases hj : jumpTaken j (sub16 x y) <;>
  · repeat (rw [run]; simp [stepInstr, writeDst, evalCmp, jumpTaken_JMP, hj, hsp,
      hs1, hs2, hs3, e1, e2, e3, e4, e5, e6, e7, e8, e9, e10, e11, hx, hy])

set_option maxRecDepth 10000 in
lemma cmp_prog_top (j : Jmp) (s x y : Nat) (ram : Nat → Nat) (a0 d0 : Nat)
    (hsp : ram 0 = s) (hx : ram (s - 2) = x) (hy : ram (s - 1) = y)
    (h16 : 16 ≤ s) (hlt : s < 65535) :
    (run [.ai 0, .ci .M .Mminus1, .ci .A .M, .ci .D .M, .ai 13,
      .ci .M .D, .ai 0, .ci .M .Mminus1, .ci .A .M, .ci .D .M,
      .ai 13, .ci .D .DminusM, .ai 17, .ji .D j,
      .ci .D .zero, .ai 18, .ji .zero .JMP, .ci .D .negOne,
      .ai 0, .ci .A .M, .ci .M .D, .ai 0, .ci .M .Mplus1]
      25 ⟨ram, a0, d0, 0⟩).ram (s - 2) =
      (if jumpTaken j (sub16 x y) then 65535 else 0) := by
  have hs1 : sub16 s 1 = s - 1 := by unfold sub16; omega
  have hs2 : sub16 (s - 1) 1 = s - 2 := by unfold sub16; omega
  have hs3 : (s - 2 + 1) % 65536 = s - 1 := by omega
  have e1 : ¬ (s - 1 = 0) := by omega
  have e2 : ¬ (s - 2 = 0) := by omega
  have e3 : ¬ (s - 1 = 13) := by omega
  have e4 : ¬ (s - 2 = 13) := by omega
  have e5 : ¬ ((0 : Nat) = 13) := by omega
  have e6 : ¬ ((13 : Nat) = 0) := by omega
  have e7 : ¬ (s - 2 = s - 1) := by omega
  have e8 : ¬ ((0 : Nat) = s - 1) := by omega
  have e9 : ¬ ((0 : Nat) = s - 2) := by omega
  have e10 : ¬ ((13 : Nat) = s - 1) := by omega
  have e11 : ¬ ((13 : Nat) = s - 2) := by omega
  by_cases hj : jumpTaken j (sub16 x y) <;>
  · repeat (rw [run]; simp [stepInstr, writeDst, evalCmp, jumpTaken_JMP, hj, hsp,
      hs1, hs2, hs3, e1, e2, e3, e4, e5, e6, e7, e8, e9, e10, e11, hx, hy])

set_option maxRecDepth 10000 in
/-- C7: each comparison lowering (eq, gt, lt) computes the 16-bit
difference of x (below) and y (top), branches on the code's
sign/zero jump condition for that difference, and leaves exactly one
of the two sentinel words on the stack: all-bits-set 65535 when the
condition holds, zero otherwise, and never any other value. -/
theorem C7_comparison_sentinels :
    ∀ op j, comparisonJumpOf op = some j →
    ∀ k L, writeArithmetic k op = some L →
    ∀ σ s x y (ram : Nat → Nat) a0 d0,
      ram 0 = s → ram (s - 2) = x → ram (s - 1) = y → 16 ≤ s → s < 65535 →
      ((run (assemble σ L) 25 ⟨ram, a0, d0, 0⟩).ram 0 = s - 1 ∧
       (run (assemble σ L) 25 ⟨ram, a0, d0, 0⟩).ram (s - 2) =
         (if jumpTaken j (sub16 x y) then 65535 else 0) ∧
       ((run (assemble σ L) 25 ⟨ram, a0, d0, 0⟩).ram (s - 2) = 65535 ∨
        (run (assemble σ L) 25 ⟨ram, a0, d0, 0⟩).ram (s - 2) = 0)) := by
  intro op j hj k L hL σ s x y ram a0 d0 hsp hx hy h16 hlt
  unfold comparisonJumpOf at hj
  split_ifs at hj with h1 h2 h3 <;> simp only [Option.some.injEq] at hj
  · subst h1
    subst hj
    simp [writeArithmetic, getCommand, getComparisonCommand, comparisonJumpOf,
      helperArithmeticCommands, helperComparisonCommands, helperLogicalCommands,
      getPopCode, getLoadRegisterCode, getPushCode, VariableRegister.asRef] at hL
    subst hL
    rw [cmp_assemble]
    refine ⟨cmp_prog_sp _ s x y ram a0 d0 hsp hx hy h16 hlt,
      cmp_prog_top _ s x y ram a0 d0 hsp hx hy h16 hlt, ?_⟩
    rw [cmp_prog_top _ s x y ram a0 d0 hsp hx hy h16 hlt]
    by_cases hc : jumpTaken Jmp.JEQ (sub16 x y) <;> simp [hc]
  · subst h2
    subst hj
    simp [writeArithmetic, getCommand, getComparisonCommand, comparisonJumpOf,
      helperArithmeticCommands, helperComparisonCommands, helperLogicalCommands,
      getPopCode, getLoadRegisterCode, getPushCode, VariableRegister.asRef] at hL
    subst hL
    rw [cmp_assemble]
    refine ⟨cmp_prog_sp _ s x y ram a0 d0 hsp hx hy h16 hlt,
      cmp_prog_top _ s x y ram a0 d0 hsp hx hy h16 hlt, ?_⟩
    rw [cmp_prog_top _ s x y ram a0 d0 hsp hx hy h16 hlt]
    by_cases hc : jumpTaken Jmp.JGT (sub16 x y) <;> simp [hc]
  · subst h3
    subst hj
    simp [writeArithmetic, getCommand, getComparisonCommand, comparisonJumpOf,
      helperArithmeticCommands, helperComparisonCommands, helperLogicalCommands,
      getPopCode, getLoadRegisterCode, getPushCode, VariableRegister.asRef] at hL
    subst hL
    rw [cmp_assemble]
    refine ⟨cmp_prog_sp _ s x y ram a0 d0 hsp hx hy h16 hlt,
      cmp_prog_top _ s x y ram a0 d0 hsp hx hy h16 hlt, ?_⟩
    rw [cmp_prog_top _ s x y ram a0 d0 hsp hx hy h16 hlt]
    by_cases hc : jumpTaken Jmp.JLT (sub16 x y) <;> simp [hc]

/-- Witness for C7: eq on two copies of 5 pushes the true sentinel. -/
theorem C7_witness :
    ∃ L, writeArithmetic 0 "eq" = some L ∧
      (run (assemble (fun _ => 0) L) 25
        ⟨fun i => if i = 0 then 258 else if i = 256 then 5 else if i = 257 then 5 else 0,
         0, 0, 0⟩).ram 256 = 65535 := by
  refine ⟨_, rfl, ?_⟩
  have h := C7_comparison_sentinels "eq" .JEQ rfl 0 _ rfl (fun _ => 0) 258 5 5
    (fun i => if i = 0 then 258 else if i = 256 then 5 else if i = 257 then 5 else 0)
    0 0 (by decide) (by decide) (by decide) (by decide) (by decide)
  have h2 := h.2.1
  rw [h2]
  decide

set_option maxRecDepth 10000 in
lemma push_const_sp (v s : Nat) (ram : Nat → Nat) (a0 d0 : Nat)
    (hsp : ram 0 = s) (h16 : 16 ≤ s) (hlt : s < 65535) :
    (run [.ai v, .ci .D .A, .ai 0, .ci .A .M, .ci .M .D, .ai 0, .ci .M .Mplus1]
      12 ⟨ram, a0, d0, 0⟩).ram 0 = s + 1 := by
  have e01 : ¬ ((0 : Nat) = s) := by omega
  have hm1 : (s + 1) % 65536 = s + 1 := by omega
  repeat (rw [run]; simp [stepInstr, writeDst, evalCmp, hsp, e01, hm1])

set_option maxRecDepth 10000 in
lemma push_load_sp (w s : Nat) (ram : Nat → Nat) (a0 d0 : Nat)
    (hsp : ram 0 = s) (h16 : 16 ≤ s) (hlt : s < 65535) :
    (run [.ai w, .ci .D .M, .ai 0, .ci .A .M, .ci .M .D, .ai 0, .ci .M .Mplus1]
      12 ⟨ram, a0, d0, 0⟩).ram 0 = s + 1 := by
  have e01 : ¬ ((0 : Nat) = s) := by omega
  have hm1 : (s + 1) % 65536 = s + 1 := by omega
  repeat (rw [run]; simp [stepInstr, writeDst, evalCmp, hsp, e01, hm1])

set_option maxRecDepth 10000 in
lemma push_base_sp (r idx s : Nat) (ram : Nat → Nat) (a0 d0 : Nat)
    (hsp : ram 0 = s) (h16 : 16 ≤ s) (hlt : s < 65535) :
    (run [.ai idx, .ci .D .A, .ai r, .ci .A .DplusM, .ci .D .M,
      .ai 0, .ci .A .M, .ci .M .D, .ai 0, .ci .M .Mplus1]
      12 ⟨ram, a0, d0, 0⟩).ram 0 = s + 1 := by
  have e01 : ¬ ((0 : Nat) = s) := by omega
  have hm1 : (s + 1) % 65536 = s + 1 := by omega
  repeat (rw [run]; simp [stepInstr, writeDst, evalCmp, hsp, e01, hm1])

set_option maxRecDepth 10000 in
lemma pop_reg_sp (t s : Nat) (ram : Nat → Nat) (a0 d0 : Nat)
    (hsp : ram 0 = s) (h16 : 16 ≤ s) (hlt : s < 65535) (ht : ¬ ((0 : Nat) = t)) :
    (run [.ai t, .ci .D .A, .ai 13, .ci .M .D,
      .ai 0, .ci .M .Mminus1, .ci .A .M, .ci .D .M,
      .ai 13, .ci .A .M, .ci .M .D]
      14 ⟨ram, a0, d0, 0⟩).ram 0 = s - 1 := by
  have hs1 : sub16 s 1 = s - 1 := by unfold sub16; omega
  have e1 : ¬ (s - 1 = 0) := by omega
  have e2 : ¬ (s - 1 = 13) := by omega
  have e5 : ¬ ((0 : Nat) = 13) := by omega
  have e6 : ¬ ((13 : Nat) = 0) := by omega
  have e8 : ¬ ((0 : Nat) = s - 1) := by omega
  have e10 : ¬ ((13 : Nat) = s - 1) := by omega
  repeat (rw [run]; simp [stepInstr, writeDst, evalCmp, hsp, hs1,
    e1, e2, e5, e6, e8, e10, ht])

set_option maxRecDepth 10000 in
lemma pop_base_sp (r idx s : Nat) (ram : Nat → Nat) (a0 d0 : Nat)
    (hsp : ram 0 = s) (h16 : 16 ≤ s) (hlt : s < 65535)
    (ht : ¬ ((0 : Nat) = (idx + ram r) % 65536)) :
    (run [.ai idx, .ci .D .A, .ai r, .ci .D .DplusM, .ai 13, .ci .M .D,
      .ai 0, .ci .M .Mminus1, .ci .A .M, .ci .D .M,
      .ai 13, .ci .A .M, .ci .M .D]
      14 ⟨ram, a0, d0, 0⟩).ram 0 = s - 1 := by
  have hs1 : sub16 s 1 = s - 1 := by unfold sub16; omega
  have e1 : ¬ (s - 1 = 0) := by omega
  have e2 : ¬ (s - 1 = 13) := by omega
  have e5 : ¬ ((0 : Nat) = 13) := by omega
  have e6 : ¬ ((13 : Nat) = 0) := by omega
  have e8 : ¬ ((0 : Nat) = s - 1) := by omega
  have e10 : ¬ ((13 : Nat) = s - 1) := by omega
  repeat (rw [run]; simp [stepInstr, writeDst, evalCmp, hsp, hs1,
    e1, e2, e5, e6, e8, e10, ht])

set_option maxRecDepth 10000 in
lemma pop_static_sp (w s : Nat) (ram : Nat → Nat) (a0 d0 : Nat)
    (hsp : ram 0 = s) (h16 : 16 ≤ s) (hlt : s < 65535) (hw : ¬ ((0 : Nat) = w)) :
    (run [.ai 0, .ci .M .Mminus1, .ci .A .M, .ci .D .M, .ai w, .ci .M .D]
      14 ⟨ram, a0, d0, 0⟩).ram 0 = s - 1 := by
  have hs1 : sub16 s 1 = s - 1 := by unfold sub16; omega
  have e1 : ¬ (s - 1 = 0) := by omega
  have e8 : ¬ ((0 : Nat) = s - 1) := by omega
  repeat (rw [run]; simp [stepInstr, writeDst, evalCmp, hsp, hs1, e1, e8, hw])

set_option maxRecDepth 10000 in
lemma arith_bin_sp (c : Cmp) (s : Nat) (ram : Nat → Nat) (a0 d0 : Nat)
    (hsp : ram 0 = s) (h16 : 16 ≤ s) (hlt : s < 65535) :
    (run [.ai 0, .ci .M .Mminus1, .ci .A .M, .ci .D .M, .ai 13, .ci .M .D,
      .ai 0, .ci .M .Mminus1, .ci .A .M, .ci .D .M, .ai 13, .ci .D c,
      .ai 0, .ci .A .M, .ci .M .D, .ai 0, .ci .M .Mplus1]
      17 ⟨ram, a0, d0, 0⟩).ram 0 = s - 1 := by
  have hs1 : sub16 s 1 = s - 1 := by unfold sub16; omega
  have hs2 : sub16 (s - 1) 1 = s - 2 := by unfold sub16; omega
  have hs3 : (s - 2 + 1) % 65536 = s - 1 := by omega
  have e1 : ¬ (s - 1 = 0) := by omega
  have e2 : ¬ (s - 2 = 0) := by omega
  have e3 : ¬ (s - 1 = 13) := by omega
  have e4 : ¬ (s - 2 = 13) := by omega
  have e5 : ¬ ((0 : Nat) = 13) := by omega
  have e6 : ¬ ((13 : Nat) = 0) := by omega
  have e8 : ¬ ((0 : Nat) = s - 1) := by omega
  have e9 : ¬ ((0 : Nat) = s - 2) := by omega
  repeat (rw [run]; simp [stepInstr, writeDst, evalCmp, hsp, hs1, hs2, hs3,
    e1, e2, e3, e4, e5, e6, e8, e9])

set_option maxRecDepth 10000 in
lemma arith_una_sp (c : Cmp) (s : Nat) (ram : Nat → Nat) (a0 d0 : Nat)
    (hsp : ram 0 = s) (h16 : 16 ≤ s) (hlt : s < 65535) :
    (run [.ai 0, .ci .M .Mminus1, .ci .A .M, .ci .D .M, .ai 13, .ci .M .D,
      .ai 13, .ci .D c,
      .ai 0, .ci .A .M, .ci .M .D, .ai 0, .ci .M .Mplus1]
      13 ⟨ram, a0, d0, 0⟩).ram 0 = s := by
  have hs1 : sub16 s 1 = s - 1 := by unfold sub16; omega
  have hs4 : (s - 1 + 1) % 65536 = s := by omega
  have e1 : ¬ (s - 1 = 0) := by omega
  have e3 : ¬ (s - 1 = 13) := by omega
  have e5 : ¬ ((0 : Nat) = 13) := by omega
  have e6 : ¬ ((13 : Nat) = 0) := by omega
  have e8 : ¬ ((0 : Nat) = s - 1) := by omega
  repeat (rw [run]; simp [stepInstr, writeDst, evalCmp, hsp, hs1, hs4,
    e1, e3, e5, e6, e8])

set_option maxRecDepth 10000 in
lemma push_sp_all (vmF seg : String) (idx : Nat) (L : List Line) (σ : String → Nat)
    (ram : Nat → Nat) (a0 d0 s : Nat)
    (hL : getSegmentCode vmF .Push seg idx = some L)
    (hsp : ram 0 = s) (h16 : 16 ≤ s) (hlt : s < 65535) :
    (run (assemble σ L) 12 ⟨ram, a0, d0, 0⟩).ram 0 = s + 1 := by
  simp only [getSegmentCode] at hL
  split_ifs at hL with hc ht hps
  · subst hc
    simp [segmentSymbolLines, getPushCode] at hL
    subst hL
    have hA : assemble σ [Line.ai (.num idx), .ci .D .A, .ai (.name "SP"), .ci .A .M,
        .ci .M .D, .ai (.name "SP"), .ci .M .Mplus1] =
        [.ai idx, .ci .D .A, .ai 0, .ci .A .M, .ci .M .D, .ai 0, .ci .M .Mplus1] := by
      simp [assemble, labelAddrs, assembleLines, resolveSym, lookupSym, builtinSymbols]
    rw [hA]
    exact push_const_sp idx s ram a0 d0 hsp h16 hlt
  · subst ht
    simp [segmentSymbolLines, getPushCode] at hL
    subst hL
    have hA : assemble σ [Line.ai (.num ((idx + 5) % 65536)), .ci .D .M,
        .ai (.name "SP"), .ci .A .M,
        .ci .M .D, .ai (.name "SP"), .ci .M .Mplus1] =
        [.ai ((idx + 5) % 65536), .ci .D .M,
         .ai 0, .ci .A .M, .ci .M .D, .ai 0, .ci .M .Mplus1] := by
      simp [assemble, labelAddrs, assembleLines, resolveSym, lookupSym, builtinSymbols]
    rw [hA]
    exact push_load_sp ((idx + 5) % 65536) s ram a0 d0 hsp h16 hlt
  · rcases hps with hp | hst
    · subst hp
      simp [segmentSymbolLines] at hL
      split_ifs at hL with h0 h1
      · simp [getPushCode] at hL
        subst hL
        have hA : assemble σ [Line.ai (.name "THIS"), .ci .D .M, .ai (.name "SP"), .ci .A .M,
            .ci .M .D, .ai (.name "SP"), .ci .M .Mplus1] =
            [.ai 3, .ci .D .M, .ai 0, .ci .A .M, .ci .M .D, .ai 0, .ci .M .Mplus1] := by
          simp [assemble, labelAddrs, assembleLines, resolveSym, lookupSym, builtinSymbols]
        rw [hA]
        exact push_load_sp 3 s ram a0 d0 hsp h16 hlt
      · simp [getPushCode] at hL
        subst hL
        have hA : assemble σ [Line.ai (.name "THAT"), .ci .D .M, .ai (.name "SP"), .ci .A .M,
            .ci .M .D, .ai (.name "SP"), .ci .M .Mplus1] =
            [.ai 4, .ci .D .M, .ai 0, .ci .A .M, .ci .M .D, .ai 0, .ci .M .Mplus1] := by
          simp [assemble, labelAddrs, assembleLines, resolveSym, lookupSym, builtinSymbols]
        rw [hA]
        exact push_load_sp 4 s ram a0 d0 hsp h16 hlt
      · simp at hL
    · subst hst
      simp [segmentSymbolLines, getPushCode] at hL
      subst hL
      have hA : assemble σ [Line.ai (.name (staticSymbol vmF idx)), .ci .D .M,
          .ai (.name "SP"), .ci .A .M, .ci .M .D, .ai (.name "SP"), .ci .M .Mplus1] =
          [.ai (resolveSym [] σ (.name (staticSymbol vmF idx))), .ci .D .M,
           .ai 0, .ci .A .M, .ci .M .D, .ai 0, .ci .M .Mplus1] := by
        simp [assemble, labelAddrs, assembleLines, resolveSym, lookupSym, builtinSymbols]
      rw [hA]
      exact push_load_sp _ s ram a0 d0 hsp h16 hlt
  · simp only [segmentSymbolLines] at hL
    split_ifs at hL with hloc harg hthis hthat hq1 hq2 hq3
    · simp [getPushCode] at hL
      subst hL
      have hA : assemble σ [Line.ai (.num idx), .ci .D .A, .ai (.name "LCL"),
          .ci .A .DplusM, .ci .D .M,
          .ai (.name "SP"), .ci .A .M, .ci .M .D, .ai (.name "SP"), .ci .M .Mplus1] =
          [.ai idx, .ci .D .A, .ai 1, .ci .A .DplusM, .ci .D .M,
           .ai 0, .ci .A .M, .ci .M .D, .ai 0, .ci .M .Mplus1] := by
        simp [assemble, labelAddrs, assembleLines, resolveSym, lookupSym, builtinSymbols]
      rw [hA]
      exact push_base_sp 1 idx s ram a0 d0 hsp h16 hlt
    · simp [getPushCode] at hL
      subst hL
      have hA : assemble σ [Line.ai (.num idx), .ci .D .A, .ai (.name "ARG"),
          .ci .A .DplusM, .ci .D .M,
          .ai (.name "SP"), .ci .A .M, .ci .M .D, .ai (.name "SP"), .ci .M .Mplus1] =
          [.ai idx, .ci .D .A, .ai 2, .ci .A .DplusM, .ci .D .M,
           .ai 0, .ci .A .M, .ci .M .D, .ai 0, .ci .M .Mplus1] := by
        simp [assemble, labelAddrs, assembleLines, resolveSym, lookupSym, builtinSymbols]
      rw [hA]
      exact push_base_sp 2 idx s ram a0 d0 hsp h16 hlt
    · simp [getPushCode] at hL
      subst hL
      have hA : assemble σ [Line.ai (.num idx), .ci .D .A, .ai (.name "THIS"),
          .ci .A .DplusM, .ci .D .M,
          .ai (.name "SP"), .ci .A .M, .ci .M .D, .ai (.name "SP"), .ci .M .Mplus1] =
          [.ai idx, .ci .D .A, .ai 3, .ci .A .DplusM, .ci .D .M,
           .ai 0, .ci .A .M, .ci .M .D, .ai 0, .ci .M .Mplus1] := by
        simp [assemble, labelAddrs, assembleLines, resolveSym, lookupSym, builtinSymbols]
      rw [hA]
      exact push_base_sp 3 idx s ram a0 d0 hsp h16 hlt
    · simp [getPushCode] at hL
      subst hL
      have hA : assemble σ [Line.ai (.num idx), .ci .D .A, .ai (.name "THAT"),
          .ci .A .DplusM, .ci .D .M,
          .ai (.name "SP"), .ci .A .M, .ci .M .D, .ai (.name "SP"), .ci .M .Mplus1] =
          [.ai idx, .ci .D .A, .ai 4, .ci .A .DplusM, .ci .D .M,
           .ai 0, .ci .A .M, .ci .M .D, .ai 0, .ci .M .Mplus1] := by
        simp [assemble, labelAddrs, assembleLines, resolveSym, lookupSym, builtinSymbols]
      rw [hA]
      exact push_base_sp 4 idx s ram a0 d0 hsp h16 hlt
    · exact absurd (Or.inl hq1.1) hps
    · exact absurd (Or.inl hq2.1) hps
    · exact absurd (Or.inr hq3) hps
    · simp at hL

lemma static_ne (f : String) (i : Nat) (t : String) (h : '.' ∉ t.data) :
    ¬ (staticSymbol f i = t) := by
  intro he
  apply h
  rw [← he]
  simp [staticSymbol, data_append]

lemma dot_not_builtin (f : String) (i : Nat) : builtinSymbols (staticSymbol f i) = none := by
  have hdot : '.' ∈ (staticSymbol f i).data := by
    simp [staticSymbol, data_append]
  have h8 : ∀ (t : String), '.' ∉ t.data → staticSymbol f i ≠ t :=
    fun t hn he => hn (he ▸ hdot)
  unfold builtinSymbols
  rw [if_neg (h8 "SP" (by decide)), if_neg (h8 "LCL" (by decide)),
    if_neg (h8 "ARG" (by decide)), if_neg (h8 "THIS" (by decide)),
    if_neg (h8 "THAT" (by decide)), if_neg (h8 "R13" (by decide)),
    if_neg (h8 "R14" (by decide)), if_neg (h8 "R15" (by decide))]

lemma resolve_static (σ : String → Nat) (f : String) (i : Nat) :
    resolveSym [] σ (.name (staticSymbol f i)) = σ (staticSymbol f i) := by
  simp [resolveSym, lookupSym, dot_not_builtin]

set_option maxRecDepth 10000 in
lemma pop_sp_all (vmF seg : String) (idx : Nat) (L : List Line) (σ : String → Nat)
    (ram : Nat → Nat) (a0 d0 s : Nat)
    (hL : getSegmentCode vmF .Pop seg idx = some L)
    (hnc : ¬ (seg = "constant"))
    (hsp : ram 0 = s) (h16 : 16 ≤ s) (hlt : s < 65535)
    (hreg : ∀ r, 1 ≤ r → r ≤ 4 → ¬ ((0 : Nat) = (idx + ram r) % 65536))
    (hstc : ¬ ((0 : Nat) = σ (staticSymbol vmF idx)))
    (htmp : ¬ ((0 : Nat) = (idx + 5) % 65536)) :
    (run (assemble σ L) 14 ⟨ram, a0, d0, 0⟩).ram 0 = s - 1 := by
  simp only [getSegmentCode] at hL
  split_ifs at hL with hst htm hptr
  · subst hst
    simp [segmentSymbolLines, getPopCode, VariableRegister.asRef] at hL
    subst hL
    have hA : assemble σ [Line.ai (.name "SP"), .ci .M .Mminus1, .ci .A .M, .ci .D .M,
        .ai (.name (staticSymbol vmF idx)), .ci .M .D] =
        [.ai 0, .ci .M .Mminus1, .ci .A .M, .ci .D .M,
         .ai (σ (staticSymbol vmF idx)), .ci .M .D] := by
      simp [assemble, labelAddrs, assembleLines, resolveSym, lookupSym, builtinSymbols,
        static_ne vmF idx "SP" (by decide), static_ne vmF idx "LCL" (by decide),
        static_ne vmF idx "ARG" (by decide), static_ne vmF idx "THIS" (by decide),
        static_ne vmF idx "THAT" (by decide), static_ne vmF idx "R13" (by decide),
        static_ne vmF idx "R14" (by decide), static_ne vmF idx "R15" (by decide)]
    rw [hA]
    exact pop_static_sp _ s ram a0 d0 hsp h16 hlt hstc
  · subst htm
    simp [segmentSymbolLines, getPopCode, VariableRegister.asRef] at hL
    subst hL
    have hA : assemble σ [Line.ai (.num ((idx + 5) % 65536)), .ci .D .A,
        .ai (.name "R13"), .ci .M .D,
        .ai (.name "SP"), .ci .M .Mminus1, .ci .A .M, .ci .D .M,
        .ai (.name "R13"), .ci .A .M, .ci .M .D] =
        [.ai ((idx + 5) % 65536), .ci .D .A, .ai 13, .ci .M .D,
         .ai 0, .ci .M .Mminus1, .ci .A .M, .ci .D .M,
         .ai 13, .ci .A .M, .ci .M .D] := by
      simp [assemble, labelAddrs, assembleLines, resolveSym, lookupSym, builtinSymbols]
    rw [hA]
    exact pop_reg_sp ((idx + 5) % 65536) s ram a0 d0 hsp h16 hlt htmp
  · subst hptr
    simp [segmentSymbolLines] at hL
    split_ifs at hL with h0 h1
    · simp [getPopCode, VariableRegister.asRef] at hL
      subst hL
      have hA : assemble σ [Line.ai (.name "THIS"), .ci .D .A, .ai (.name "R13"), .ci .M .D,
          .ai (.name "SP"), .ci .M .Mminus1, .ci .A .M, .ci .D .M,
          .ai (.name "R13"), .ci .A .M, .ci .M .D] =
          [.ai 3, .ci .D .A, .ai 13, .ci .M .D,
           .ai 0, .ci .M .Mminus1, .ci .A .M, .ci .D .M,
           .ai 13, .ci .A .M, .ci .M .D] := by
        simp [assemble, labelAddrs, assembleLines, resolveSym, lookupSym, builtinSymbols]
      rw [hA]
      exact pop_reg_sp 3 s ram a0 d0 hsp h16 hlt (by omega)
    · simp [getPopCode, VariableRegister.asRef] at hL
      subst hL
      have hA : assemble σ [Line.ai (.name "THAT"), .ci .D .A, .ai (.name "R13"), .ci .M .D,
          .ai (.name "SP"), .ci .M .Mminus1, .ci .A .M, .ci .D .M,
          .ai (.name "R13"), .ci .A .M, .ci .M .D] =
          [.ai 4, .ci .D .A, .ai 13, .ci .M .D,
           .ai 0, .ci .M .Mminus1, .ci .A .M, .ci .D .M,
           .ai 13, .ci .A .M, .ci .M .D] := by
        simp [assemble, labelAddrs, assembleLines, resolveSym, lookupSym, builtinSymbols]
      rw [hA]
      exact pop_reg_sp 4 s ram a0 d0 hsp h16 hlt (by omega)
    · simp at hL
  · simp only [segmentSymbolLines] at hL
    split_ifs at hL with hloc harg hthis hthat hq1 hq2
    · simp [getPopCode, VariableRegister.asRef] at hL
      subst hL
      have hA : assemble σ [Line.ai (.num idx), .ci .D .A, .ai (.name "LCL"),
          .ci .D .DplusM, .ai (.name "R13"), .ci .M .D,
          .ai (.name "SP"), .ci .M .Mminus1, .ci .A .M, .ci .D .M,
          .ai (.name "R13"), .ci .A .M, .ci .M .D] =
          [.ai idx, .ci .D .A, .ai 1, .ci .D .DplusM, .ai 13, .ci .M .D,
           .ai 0, .ci .M .Mminus1, .ci .A .M, .ci .D .M,
           .ai 13, .ci .A .M, .ci .M .D] := by
        simp [assemble, labelAddrs, assembleLines, resolveSym, lookupSym, builtinSymbols]
      rw [hA]
      exact pop_base_sp 1 idx s ram a0 d0 hsp h16 hlt (hreg 1 (by omega) (by omega))
    · simp [getPopCode, VariableRegister.asRef] at hL
      subst hL
      have hA : assemble σ [Line.ai (.num idx), .ci .D .A, .ai (.name "ARG"),
          .ci .D .DplusM, .ai (.name "R13"), .ci .M .D,
          .ai (.name "SP"), .ci .M .Mminus1, .ci .A .M, .ci .D .M,
          .ai (.name "R13"), .ci .A .M, .ci .M .D] =
          [.ai idx, .ci .D .A, .ai 2, .ci .D .DplusM, .ai 13, .ci .M .D,
           .ai 0, .ci .M .Mminus1, .ci .A .M, .ci .D .M,
           .ai 13, .ci .A .M, .ci .M .D] := by
        simp [assemble, labelAddrs, assembleLines, resolveSym, lookupSym, builtinSymbols]
      rw [hA]
      exact pop_base_sp 2 idx s ram a0 d0 hsp h16 hlt (hreg 2 (by omega) (by omega))
    · simp [getPopCode, VariableRegister.asRef] at hL
      subst hL
      have hA : assemble σ [Line.ai (.num idx), .ci .D .A, .ai (.name "THIS"),
          .ci .D .DplusM, .ai (.name "R13"), .ci .M .D,
          .ai (.name "SP"), .ci .M .Mminus1, .ci .A .M, .ci .D .M,
          .ai (.name "R13"), .ci .A .M, .ci .M .D] =
          [.ai idx, .ci .D .A, .ai 3, .ci .D .DplusM, .ai 13, .ci .M .D,
           .ai 0, .ci .M .Mminus1, .ci .A .M, .ci .D .M,
           .ai 13, .ci .A .M, .ci .M .D] := by
        simp [assemble, labelAddrs, assembleLines, resolveSym, lookupSym, builtinSymbols]
      rw [hA]
      exact pop_base_sp 3 idx s ram a0 d0 hsp h16 hlt (hreg 3 (by omega) (by omega))
    · simp [getPopCode, VariableRegister.asRef] at hL
      subst hL
      have hA : assemble σ [Line.ai (.num idx), .ci .D .A, .ai (.name "THAT"),
          .ci .D .DplusM, .ai (.name "R13"), .ci .M .D,
          .ai (.name "SP"), .ci .M .Mminus1, .ci .A .M, .ci .D .M,
          .ai (.name "R13"), .ci .A .M, .ci .M .D] =
          [.ai idx, .ci .D .A, .ai 4, .ci .D .DplusM, .ai 13, .ci .M .D,
           .ai 0, .ci .M .Mminus1, .ci .A .M, .ci .D .M,
           .ai 13, .ci .A .M, .ci .M .D] := by
        simp [assemble, labelAddrs, assembleLines, resolveSym, lookupSym, builtinSymbols]
      rw [hA]
      exact pop_base_sp 4 idx s ram a0 d0 hsp h16 hlt (hreg 4 (by omega) (by omega))
    · exact absurd hq1.1 hptr
    · exact absurd hq2.1 hptr
    · simp at hL

set_option maxRecDepth 10000 in
/-- C8: net stack-pointer effect of every emitted command sequence:
+1 word for every push (all segments), -1 for every pop (all
segments the spec permits popping to), -1 for every binary
arithmetic, logical or comparison opcode, and 0 for the unary
opcodes neg and not. The pop case requires the destination address
not to land on the stack-pointer cell itself: for the base-register
segments that is a condition on the run-time address sum, for static
on the assembler's allocation, and for temp on the u16 base offset
index + 5, which the source computes with wrapping arithmetic, so a
classifiable pop temp with index at least 65531 wraps the store onto
addresses 0..4 (a release build) or aborts before emitting (debug). -/
theorem C8_stack_pointer_effect :
    (∀ vmF seg idx L σ (ram : Nat → Nat) a0 d0 s,
      getSegmentCode vmF CommandType.Push seg idx = some L →
      ram 0 = s → 16 ≤ s → s < 65535 →
      (run (assemble σ L) 12 ⟨ram, a0, d0, 0⟩).ram 0 = s + 1) ∧
    (∀ vmF seg idx L σ (ram : Nat → Nat) a0 d0 s,
      getSegmentCode vmF CommandType.Pop seg idx = some L →
      ¬ (seg = "constant") →
      ram 0 = s → 16 ≤ s → s < 65535 →
      (∀ r, 1 ≤ r → r ≤ 4 → ¬ ((0 : Nat) = (idx + ram r) % 65536)) →
      ¬ ((0 : Nat) = σ (staticSymbol vmF idx)) →
      ¬ ((0 : Nat) = (idx + 5) % 65536) →
      (run (assemble σ L) 14 ⟨ram, a0, d0, 0⟩).ram 0 = s - 1) ∧
    (∀ op, (op = "add" ∨ op = "sub" ∨ op = "and" ∨ op = "or") →
      ∀ k L σ (ram : Nat → Nat) a0 d0 s, writeArithmetic k op = some L →
      ram 0 = s → 16 ≤ s → s < 65535 →
      (run (assemble σ L) 17 ⟨ram, a0, d0, 0⟩).ram 0 = s - 1) ∧
    (∀ op, (op = "neg" ∨ op = "not") →
      ∀ k L σ (ram : Nat → Nat) a0 d0 s, writeArithmetic k op = some L →
      ram 0 = s → 16 ≤ s → s < 65535 →
      (run (assemble σ L) 13 ⟨ram, a0, d0, 0⟩).ram 0 = s) ∧
    (∀ op j, comparisonJumpOf op = some j →
      ∀ k L σ (ram : Nat → Nat) a0 d0 s, writeArithmetic k op = some L →
      ram 0 = s → 16 ≤ s → s < 65535 →
      (run (assemble σ L) 25 ⟨ram, a0, d0, 0⟩).ram 0 = s - 1) := by
  refine ⟨?_, ?_, ?_, ?_, ?_⟩
  · intro vmF seg idx L σ ram a0 d0 s hL hsp h16 hlt
    exact push_sp_all vmF seg idx L σ ram a0 d0 s hL hsp h16 hlt
  · intro vmF seg idx L σ ram a0 d0 s hL hnc hsp h16 hlt hreg hstc htmp
    exact pop_sp_all vmF seg idx L σ ram a0 d0 s hL hnc hsp h16 hlt hreg hstc htmp
  · intro op hop k L σ ram a0 d0 s hL hsp h16 hlt
    rcases hop with rfl | rfl | rfl | rfl
    · simp [writeArithmetic, getCommand, getArithmeticCommand, getLogicalCommand,
        helperArithmeticCommands, helperComparisonCommands, helperLogicalCommands,
        getPopCode, getLoadRegisterCode, getPushCode, VariableRegister.asRef] at hL
      subst hL
      have hA : assemble σ [Line.ai (.name "SP"), .ci .M .Mminus1, .ci .A .M, .ci .D .M,
          .ai (.name "R13"), .ci .M .D,
          .ai (.name "SP"), .ci .M .Mminus1, .ci .A .M, .ci .D .M,
          .ai (.name "R13"), .ci .D .DplusM,
          .ai (.name "SP"), .ci .A .M, .ci .M .D, .ai (.name "SP"), .ci .M .Mplus1] =
          [.ai 0, .ci .M .Mminus1, .ci .A .M, .ci .D .M, .ai 13, .ci .M .D,
           .ai 0, .ci .M .Mminus1, .ci .A .M, .ci .D .M, .ai 13, .ci .D .DplusM,
           .ai 0, .ci .A .M, .ci .M .D, .ai 0, .ci .M .Mplus1] := by
        simp [assemble, labelAddrs, assembleLines, resolveSym, lookupSym, builtinSymbols]
      rw [hA]
      exact arith_bin_sp .DplusM s ram a0 d0 hsp h16 hlt
    · simp [writeArithmetic, getCommand, getArithmeticCommand, getLogicalCommand,
        helperArithmeticCommands, helperComparisonCommands, helperLogicalCommands,
        getPopCode, getLoadRegisterCode, getPushCode, VariableRegister.asRef] at hL
      subst hL
      have hA : assemble σ [Line.ai (.name "SP"), .ci .M .Mminus1, .ci .A .M, .ci .D .M,
          .ai (.name "R13"), .ci .M .D,
          .ai (.name "SP"), .ci .M .Mminus1, .ci .A .M, .ci .D .M,
          .ai (.name "R13"), .ci .D .DminusM,
          .ai (.name "SP"), .ci .A .M, .ci .M .D, .ai (.name "SP"), .ci .M .Mplus1] =
          [.ai 0, .ci .M .Mminus1, .ci .A .M, .ci .D .M, .ai 13, .ci .M .D,
           .ai 0, .ci .M .Mminus1, .ci .A .M, .ci .D .M, .ai 13, .ci .D .DminusM,
           .ai 0, .ci .A .M, .ci .M .D, .ai 0, .ci .M .Mplus1] := by
        simp [assemble, labelAddrs, assembleLines, resolveSym, lookupSym, builtinSymbols]
      rw [hA]
      exact arith_bin_sp .DminusM s ram a0 d0 hsp h16 hlt
    · simp [writeArithmetic, getCommand, getArithmeticCommand, getLogicalCommand,
        helperArithmeticCommands, helperComparisonCommands, helperLogicalCommands,
        getPopCode, getLoadRegisterCode, getPushCode, VariableRegister.asRef] at hL
      subst hL
      have hA : assemble σ [Line.ai (.name "SP"), .ci .M .Mminus1, .ci .A .M, .ci .D .M,
          .ai (.name "R13"), .ci .M .D,
          .ai (.name "SP"), .ci .M .Mminus1, .ci .A .M, .ci .D .M,
          .ai (.name "R13"), .ci .D .DandM,
          .ai (.name "SP"), .ci .A .M, .ci .M .D, .ai (.name "SP"), .ci .M .Mplus1] =
          [.ai 0, .ci .M .Mminus1, .ci .A .M, .ci .D .M, .ai 13, .ci .M .D,
           .ai 0, .ci .M .Mminus1, .ci .A .M, .ci .D .M, .ai 13, .ci .D .DandM,
           .ai 0, .ci .A .M, .ci .M .D, .ai 0, .ci .M .Mplus1] := by
        simp [assemble, labelAddrs, assembleLines, resolveSym, lookupSym, builtinSymbols]
      rw [hA]
      exact arith_bin_sp .DandM s ram a0 d0 hsp h16 hlt
    · simp [writeArithmetic, getCommand, getArithmeticCommand, getLogicalCommand,
        helperArithmeticCommands, helperComparisonCommands, helperLogicalCommands,
        getPopCode, getLoadRegisterCode, getPushCode, VariableRegister.asRef] at hL
      subst hL
      have hA : assemble σ [Line.ai (.name "SP"), .ci .M .Mminus1, .ci .A .M, .ci .D .M,
          .ai (.name "R13"), .ci .M .D,
          .ai (.name "SP"), .ci .M .Mminus1, .ci .A .M, .ci .D .M,
          .ai (.name "R13"), .ci .D .DorM,
          .ai (.name "SP"), .ci .A .M, .ci .M .D, .ai (.name "SP"), .ci .M .Mplus1] =
          [.ai 0, .ci .M .Mminus1, .ci .A .M, .ci .D .M, .ai 13, .ci .M .D,
           .ai 0, .ci .M .Mminus1, .ci .A .M, .ci .D .M, .ai 13, .ci .D .DorM,
           .ai 0, .ci .A .M, .ci .M .D, .ai 0, .ci .M .Mplus1] := by
        simp [assemble, labelAddrs, assembleLines, resolveSym, lookupSym, builtinSymbols]
      rw [hA]
      exact arith_bin_sp .DorM s ram a0 d0 hsp h16 hlt
  · intro op hop k L σ ram a0 d0 s hL hsp h16 hlt
    rcases hop with rfl | rfl
    · simp [writeArithmetic, getCommand, getArithmeticCommand, getLogicalCommand,
        helperArithmeticCommands, helperComparisonCommands, helperLogicalCommands,
        getPopCode, getLoadRegisterCode, getPushCode, VariableRegister.asRef] at hL
      subst hL
      have hA : assemble σ [Line.ai (.name "SP"), .ci .M .Mminus1, .ci .A .M, .ci .D .M,
          .ai (.name "R13"), .ci .M .D,
          .ai (.name "R13"), .ci .D .negM,
          .ai (.name "SP"), .ci .A .M, .ci .M .D, .ai (.name "SP"), .ci .M .Mplus1] =
          [.ai 0, .ci .M .Mminus1, .ci .A .M, .ci .D .M, .ai 13, .ci .M .D,
           .ai 13, .ci .D .negM,
           .ai 0, .ci .A .M, .ci .M .D, .ai 0, .ci .M .Mplus1] := by
        simp [assemble, labelAddrs, assembleLines, resolveSym, lookupSym, builtinSymbols]
      rw [hA]
      exact arith_una_sp .negM s ram a0 d0 hsp h16 hlt
    · simp [writeArithmetic, getCommand, getArithmeticCommand, getLogicalCommand,
        helperArithmeticCommands, helperComparisonCommands, helperLogicalCommands,
        getPopCode, getLoadRegisterCode, getPushCode, VariableRegister.asRef] at hL
      subst hL
      have hA : assemble σ [Line.ai (.name "SP"), .ci .M .Mminus1, .ci .A .M, .ci .D .M,
          .ai (.name "R13"), .ci .M .D,
          .ai (.name "R13"), .ci .D .notM,
          .ai (.name "SP"), .ci .A .M, .ci .M .D, .ai (.name "SP"), .ci .M .Mplus1] =
          [.ai 0, .ci .M .Mminus1, .ci .A .M, .ci .D .M, .ai 13, .ci .M .D,
           .ai 13, .ci .D .notM,
           .ai 0, .ci .A .M, .ci .M .D, .ai 0, .ci .M .Mplus1] := by
        simp [assemble, labelAddrs, assembleLines, resolveSym, lookupSym, builtinSymbols]
      rw [hA]
      exact arith_una_sp .notM s ram a0 d0 hsp h16 hlt
  · intro op j hj k L σ ram a0 d0 s hL hsp h16 hlt
    unfold comparisonJumpOf at hj
    split_ifs at hj with h1 h2 h3 <;> simp only [Option.some.injEq] at hj
    · subst h1
      subst hj
      simp [writeArithmetic, getCommand, getComparisonCommand, comparisonJumpOf,
        helperArithmeticCommands, helperComparisonCommands, helperLogicalCommands,
        getPopCode, getLoadRegisterCode, getPushCode, VariableRegister.asRef] at hL
      subst hL
      rw [cmp_assemble]
      exact cmp_prog_sp _ s (ram (s - 2)) (ram (s - 1)) ram a0 d0 hsp rfl rfl h16 hlt
    · subst h2
      subst hj
      simp [writeArithmetic, getCommand, getComparisonCommand, comparisonJumpOf,
        helperArithmeticCommands, helperComparisonCommands, helperLogicalCommands,
        getPopCode, getLoadRegisterCode, getPushCode, VariableRegister.asRef] at hL
      subst hL
      rw [cmp_assemble]
      exact cmp_prog_sp _ s (ram (s - 2)) (ram (s - 1)) ram a0 d0 hsp rfl rfl h16 hlt
    · subst h3
      subst hj
      simp [writeArithmetic, getCommand, getComparisonCommand, comparisonJumpOf,
        helperArithmeticCommands, helperComparisonCommands, helperLogicalCommands,
        getPopCode, getLoadRegisterCode, getPushCode, VariableRegister.asRef] at hL
      subst hL
      rw [cmp_assemble]
      exact cmp_prog_sp _ s (ram (s - 2)) (ram (s - 1)) ram a0 d0 hsp rfl rfl h16 hlt

/-- Witness for C8: push constant 7 moves the stack pointer from 258
to 259. -/
theorem C8_witness :
    ∃ L, getSegmentCode "F" CommandType.Push "constant" 7 = some L ∧
      (run (assemble (fun _ => 0) L) 12
        ⟨fun i => if i = 0 then 258 else 0, 0, 0, 0⟩).ram 0 = 259 := by
  refine ⟨_, rfl, ?_⟩
  have h := C8_stack_pointer_effect.1 "F" "constant" 7 _ (fun _ => 0)
    (fun i => if i = 0 then 258 else 0) 0 0 258 rfl (by decide) (by decide) (by decide)
  exact h.trans (by decide)


set_option maxRecDepth 100000 in
set_option maxHeartbeats 16000000 in
/-- Semantic facts about the assembled body of a call fragment (its
first 47 instructions, with `w` the resolved callee entry address):
starting from SP = s it stores the return address 49 at s, the four
saved registers at s+1..s+4, sets SP and LCL to s+5 and ARG to
SP-5-n. -/
lemma callRunFacts (n : Nat) (ram : Nat → Nat)
    (a0 d0 s : Nat)
    (hsp : ram 0 = s) (h16 : 16 ≤ s) (hlt : s + 5 < 65536) (hn : n < 65531) (w : Nat) :
    ((run
        [.ai 49, .ci .D .A, .ai 0, .ci .A .M, .ci .M .D, .ai 0, .ci .M .Mplus1,
         .ai 1, .ci .D .M, .ai 0, .ci .A .M, .ci .M .D, .ai 0, .ci .M .Mplus1,
         .ai 2, .ci .D .M, .ai 0, .ci .A .M, .ci .M .D, .ai 0, .ci .M .Mplus1,
         .ai 3, .ci .D .M, .ai 0, .ci .A .M, .ci .M .D, .ai 0, .ci .M .Mplus1,
         .ai 4, .ci .D .M, .ai 0, .ci .A .M, .ci .M .D, .ai 0, .ci .M .Mplus1,
         .ai 5, .ci .D .A, .ai n, .ci .D .DplusA,
         .ai 0, .ci .D .MminusD, .ai 2, .ci .M .D,
         .ai 0, .ci .D .M, .ai 1, .ci .M .D,
         .ai w, .ji .zero .JMP] 47 ⟨ram, a0, d0, 0⟩).ram 0 = s + 5 ∧
     (run
        [.ai 49, .ci .D .A, .ai 0, .ci .A .M, .ci .M .D, .ai 0, .ci .M .Mplus1,
         .ai 1, .ci .D .M, .ai 0, .ci .A .M, .ci .M .D, .ai 0, .ci .M .Mplus1,
         .ai 2, .ci .D .M, .ai 0, .ci .A .M, .ci .M .D, .ai 0, .ci .M .Mplus1,
         .ai 3, .ci .D .M, .ai 0, .ci .A .M, .ci .M .D, .ai 0, .ci .M .Mplus1,
         .ai 4, .ci .D .M, .ai 0, .ci .A .M, .ci .M .D, .ai 0, .ci .M .Mplus1,
         .ai 5, .ci .D .A, .ai n, .ci .D .DplusA,
         .ai 0, .ci .D .MminusD, .ai 2, .ci .M .D,
         .ai 0, .ci .D .M, .ai 1, .ci .M .D,
         .ai w, .ji .zero .JMP] 47 ⟨ram, a0, d0, 0⟩).ram s = 49 ∧
     (run
        [.ai 49, .ci .D .A, .ai 0, .ci .A .M, .ci .M .D, .ai 0, .ci .M .Mplus1,
         .ai 1, .ci .D .M, .ai 0, .ci .A .M, .ci .M .D, .ai 0, .ci .M .Mplus1,
         .ai 2, .ci .D .M, .ai 0, .ci .A .M, .ci .M .D, .ai 0, .ci .M .Mplus1,
         .ai 3, .ci .D .M, .ai 0, .ci .A .M, .ci .M .D, .ai 0, .ci .M .Mplus1,
         .ai 4, .ci .D .M, .ai 0, .ci .A .M, .ci .M .D, .ai 0, .ci .M .Mplus1,
         .ai 5, .ci .D .A, .ai n, .ci .D .DplusA,
         .ai 0, .ci .D .MminusD, .ai 2, .ci .M .D,
         .ai 0, .ci .D .M, .ai 1, .ci .M .D,
         .ai w, .ji .zero .JMP] 47 ⟨ram, a0, d0, 0⟩).ram (s + 1) = ram 1 ∧
     (run
        [.ai 49, .ci .D .A, .ai 0, .ci .A .M, .ci .M .D, .ai 0, .ci .M .Mplus1,
         .ai 1, .ci .D .M, .ai 0, .ci .A .M, .ci .M .D, .ai 0, .ci .M .Mplus1,
         .ai 2, .ci .D .M, .ai 0, .ci .A .M, .ci .M .D, .ai 0, .ci .M .Mplus1,
         .ai 3, .ci .D .M, .ai 0, .ci .A .M, .ci .M .D, .ai 0, .ci .M .Mplus1,
         .ai 4, .ci .D .M, .ai 0, .ci .A .M, .ci .M .D, .ai 0, .ci .M .Mplus1,
         .ai 5, .ci .D .A, .ai n, .ci .D .DplusA,
         .ai 0, .ci .D .MminusD, .ai 2, .ci .M .D,
         .ai 0, .ci .D .M, .ai 1, .ci .M .D,
         .ai w, .ji .zero .JMP] 47 ⟨ram, a0, d0, 0⟩).ram (s + 2) = ram 2 ∧
     (run
        [.ai 49, .ci .D .A, .ai 0, .ci .A .M, .ci .M .D, .ai 0, .ci .M .Mplus1,
         .ai 1, .ci .D .M, .ai 0, .ci .A .M, .ci .M .D, .ai 0, .ci .M .Mplus1,
         .ai 2, .ci .D .M, .ai 0, .ci .A .M, .ci .M .D, .ai 0, .ci .M .Mplus1,
         .ai 3, .ci .D .M, .ai 0, .ci .A .M, .ci .M .D, .ai 0, .ci .M .Mplus1,
         .ai 4, .ci .D .M, .ai 0, .ci .A .M, .ci .M .D, .ai 0, .ci .M .Mplus1,
         .ai 5, .ci .D .A, .ai n, .ci .D .DplusA,
         .ai 0, .ci .D .MminusD, .ai 2, .ci .M .D,
         .ai 0, .ci .D .M, .ai 1, .ci .M .D,
         .ai w, .ji .zero .JMP] 47 ⟨ram, a0, d0, 0⟩).ram (s + 3) = ram 3 ∧
     (run
        [.ai 49, .ci .D .A, .ai 0, .ci .A .M, .ci .M .D, .ai 0, .ci .M .Mplus1,
         .ai 1, .ci .D .M, .ai 0, .ci .A .M, .ci .M .D, .ai 0, .ci .M .Mplus1,
         .ai 2, .ci .D .M, .ai 0, .ci .A .M, .ci .M .D, .ai 0, .ci .M .Mplus1,
         .ai 3, .ci .D .M, .ai 0, .ci .A .M, .ci .M .D, .ai 0, .ci .M .Mplus1,
         .ai 4, .ci .D .M, .ai 0, .ci .A .M, .ci .M .D, .ai 0, .ci .M .Mplus1,
         .ai 5, .ci .D .A, .ai n, .ci .D .DplusA,
         .ai 0, .ci .D .MminusD, .ai 2, .ci .M .D,
         .ai 0, .ci .D .M, .ai 1, .ci .M .D,
         .ai w, .ji .zero .JMP] 47 ⟨ram, a0, d0, 0⟩).ram (s + 4) = ram 4 ∧
     (run
        [.ai 49, .ci .D .A, .ai 0, .ci .A .M, .ci .M .D, .ai 0, .ci .M .Mplus1,
         .ai 1, .ci .D .M, .ai 0, .ci .A .M, .ci .M .D, .ai 0, .ci .M .Mplus1,
         .ai 2, .ci .D .M, .ai 0, .ci .A .M, .ci .M .D, .ai 0, .ci .M .Mplus1,
         .ai 3, .ci .D .M, .ai 0, .ci .A .M, .ci .M .D, .ai 0, .ci .M .Mplus1,
         .ai 4, .ci .D .M, .ai 0, .ci .A .M, .ci .M .D, .ai 0, .ci .M .Mplus1,
         .ai 5, .ci .D .A, .ai n, .ci .D .DplusA,
         .ai 0, .ci .D .MminusD, .ai 2, .ci .M .D,
         .ai 0, .ci .D .M, .ai 1, .ci .M .D,
         .ai w, .ji .zero .JMP] 47 ⟨ram, a0, d0, 0⟩).ram 1 = s + 5 ∧
     (run
        [.ai 49, .ci .D .A, .ai 0, .ci .A .M, .ci .M .D, .ai 0, .ci .M .Mplus1,
         .ai 1, .ci .D .M, .ai 0, .ci .A .M, .ci .M .D, .ai 0, .ci .M .Mplus1,
         .ai 2, .ci .D .M, .ai 0, .ci .A .M, .ci .M .D, .ai 0, .ci .M .Mplus1,
         .ai 3, .ci .D .M, .ai 0, .ci .A .M, .ci .M .D, .ai 0, .ci .M .Mplus1,
         .ai 4, .ci .D .M, .ai 0, .ci .A .M, .ci .M .D, .ai 0, .ci .M .Mplus1,
         .ai 5, .ci .D .A, .ai n, .ci .D .DplusA,
         .ai 0, .ci .D .MminusD, .ai 2, .ci .M .D,
         .ai 0, .ci .D .M, .ai 1, .ci .M .D,
         .ai w, .ji .zero .JMP] 47 ⟨ram, a0, d0, 0⟩).ram 2 = sub16 (s + 5) (5 + n)) := by
  have m1 : (s + 1) % 65536 = s + 1 := by omega
  have m2 : (s + 1 + 1) % 65536 = s + 2 := by omega
  have m3 : (s + 2 + 1) % 65536 = s + 3 := by omega
  have m4 : (s + 3 + 1) % 65536 = s + 4 := by omega
  have m5 : (s + 4 + 1) % 65536 = s + 5 := by omega
  have mn : (5 + n) % 65536 = 5 + n := by omega
  have q01 : ¬ ((0 : Nat) = s) := by omega
  have q02 : ¬ ((0 : Nat) = s + 1) := by omega
  have q03 : ¬ ((0 : Nat) = s + 2) := by omega
  have q04 : ¬ ((0 : Nat) = s + 3) := by omega
  have q05 : ¬ ((0 : Nat) = s + 4) := by omega
  have q11 : ¬ ((1 : Nat) = s) := by omega
  have q12 : ¬ ((1 : Nat) = s + 1) := by omega
  have q13 : ¬ ((1 : Nat) = s + 2) := by omega
  have q14 : ¬ ((1 : Nat) = s + 3) := by omega
  have q15 : ¬ ((1 : Nat) = s + 4) := by omega
  have q21 : ¬ ((2 : Nat) = s) := by omega
  have q22 : ¬ ((2 : Nat) = s + 1) := by omega
  have q23 : ¬ ((2 : Nat) = s + 2) := by omega
  have q24 : ¬ ((2 : Nat) = s + 3) := by omega
  have q25 : ¬ ((2 : Nat) = s + 4) := by omega
  have q31 : ¬ ((3 : Nat) = s) := by omega
  have q32 : ¬ ((3 : Nat) = s + 1) := by omega
  have q33 : ¬ ((3 : Nat) = s + 2) := by omega
  have q34 : ¬ ((3 : Nat) = s + 3) := by omega
  have q41 : ¬ ((4 : Nat) = s) := by omega
  have q42 : ¬ ((4 : Nat) = s + 1) := by omega
  have q43 : ¬ ((4 : Nat) = s + 2) := by omega
  have q44 : ¬ ((4 : Nat) = s + 3) := by omega
  have r01 : ¬ (s = 0) := by omega
  have r02 : ¬ (s = 1) := by omega
  have r03 : ¬ (s = 2) := by omega
  have r11 : ¬ (s + 1 = 0) := by omega
  have r12 : ¬ (s + 1 = 1) := by omega
  have r13 : ¬ (s + 1 = 2) := by omega
  have r21 : ¬ (s + 2 = 0) := by omega
  have r22 : ¬ (s + 2 = 1) := by omega
  have r23 : ¬ (s + 2 = 2) := by omega
  have r31 : ¬ (s + 3 = 0) := by omega
  have r32 : ¬ (s + 3 = 1) := by omega
  have r33 : ¬ (s + 3 = 2) := by omega
  have r41 : ¬ (s + 4 = 0) := by omega
  have r42 : ¬ (s + 4 = 1) := by omega
  have r43 : ¬ (s + 4 = 2) := by omega
  have p01 : ¬ (s = s + 1) := by omega
  have p02 : ¬ (s = s + 2) := by omega
  have p03 : ¬ (s = s + 3) := by omega
  have p04 : ¬ (s = s + 4) := by omega
  have p12 : ¬ (s + 1 = s + 2) := by omega
  have p13 : ¬ (s + 1 = s + 3) := by omega
  have p14 : ¬ (s + 1 = s + 4) := by omega
  have p23 : ¬ (s + 2 = s + 3) := by omega
  have p24 : ¬ (s + 2 = s + 4) := by omega
  have p34 : ¬ (s + 3 = s + 4) := by omega
  have p10 : ¬ (s + 1 = s) := by omega
  have p20 : ¬ (s + 2 = s) := by omega
  have p21 : ¬ (s + 2 = s + 1) := by omega
  have p30 : ¬ (s + 3 = s) := by omega
  have p31 : ¬ (s + 3 = s + 1) := by omega
  have p32 : ¬ (s + 3 = s + 2) := by omega
  have p40 : ¬ (s + 4 = s) := by omega
  have p41 : ¬ (s + 4 = s + 1) := by omega
  have p42 : ¬ (s + 4 = s + 2) := by omega
  have p43 : ¬ (s + 4 = s + 3) := by omega
  repeat
    (rw [run]
     simp [stepInstr, writeDst, evalCmp, hsp, m1, m2, m3, m4, m5, mn,
       q01, q02, q03, q04, q05, q11, q12, q13, q14, q15, q21, q22, q23, q24, q25,
       q31, q32, q33, q34, q41, q42, q43, q44,
       r01, r02, r03, r11, r12, r13, r21, r22, r23, r31, r32, r33, r41, r42, r43,
       p01, p02, p03, p04, p12, p13, p14, p23, p24, p34,
       p10, p20, p21, p30, p31, p32, p40, p41, p42, p43])

set_option maxRecDepth 10000 in
set_option maxHeartbeats 4000000 in
/-- A call fragment assembles to the explicit instruction list below:
the return-address symbol resolves to 49 (its label position), the
register names to their builtin addresses, and the callee name to
whatever the label table, builtins or σ give it. -/
lemma call_assemble (f : String) (n k : Nat) (σ : String → Nat) :
    assemble σ (getCallCode f n k) =
      [.ai 49, .ci .D .A, .ai 0, .ci .A .M, .ci .M .D, .ai 0, .ci .M .Mplus1,
       .ai 1, .ci .D .M, .ai 0, .ci .A .M, .ci .M .D, .ai 0, .ci .M .Mplus1,
       .ai 2, .ci .D .M, .ai 0, .ci .A .M, .ci .M .D, .ai 0, .ci .M .Mplus1,
       .ai 3, .ci .D .M, .ai 0, .ci .A .M, .ci .M .D, .ai 0, .ci .M .Mplus1,
       .ai 4, .ci .D .M, .ai 0, .ci .A .M, .ci .M .D, .ai 0, .ci .M .Mplus1,
       .ai 5, .ci .D .A, .ai n, .ci .D .DplusA,
       .ai 0, .ci .D .MminusD, .ai 2, .ci .M .D,
       .ai 0, .ci .D .M, .ai 1, .ci .M .D,
       .ai (resolveSym (labelAddrs (getCallCode f n k) 0) σ (.name f)),
       .ji .zero .JMP] := by
  simp [assemble, getCallCode, getPushCode, getGotoCode, labelAddrs, assembleLines,
    resolveSym, lookupSym, builtinSymbols,
    retSym_ne_short f k "SP" (by decide), retSym_ne_short f k "LCL" (by decide),
    retSym_ne_short f k "ARG" (by decide), retSym_ne_short f k "THIS" (by decide),
    retSym_ne_short f k "THAT" (by decide), retSym_ne_base f k]

set_option maxRecDepth 10000 in
/-- C3: the call fragment for callee f with n arguments and counter k
first pushes the return-address symbol, then the saved LCL, ARG, THIS
and THAT registers, repositions ARG to SP-5-n and LCL to SP, jumps to
f, and ends with the return-address label declaration: structurally
its last three lines are the jump to f and the label, the label sits
at instruction address 49, and running the 47 instructions before the
jump from SP = s stores the return address at s, the four saved
registers in order at s+1..s+4, and leaves SP = LCL = s+5 and
ARG = s+5-5-n = s-n. -/
theorem C3_call_protocol (f : String) (n k : Nat) :
    getCallCode f n k = (getCallCode f n k).take 47 ++
      [.ai (.name f), .ji .zero .JMP, .label (returnAddressSymbol f k)] ∧
    labelAddrs (getCallCode f n k) 0 = [(returnAddressSymbol f k, 49)] ∧
    (∀ σ (ram : Nat → Nat) a0 d0 s,
      ram 0 = s → 16 ≤ s → s + 5 < 65536 → n < 65531 →
      ((run (assemble σ (getCallCode f n k)) 47 ⟨ram, a0, d0, 0⟩).ram 0 = s + 5 ∧
       (run (assemble σ (getCallCode f n k)) 47 ⟨ram, a0, d0, 0⟩).ram s = 49 ∧
       (run (assemble σ (getCallCode f n k)) 47 ⟨ram, a0, d0, 0⟩).ram (s + 1) = ram 1 ∧
       (run (assemble σ (getCallCode f n k)) 47 ⟨ram, a0, d0, 0⟩).ram (s + 2) = ram 2 ∧
       (run (assemble σ (getCallCode f n k)) 47 ⟨ram, a0, d0, 0⟩).ram (s + 3) = ram 3 ∧
       (run (assemble σ (getCallCode f n k)) 47 ⟨ram, a0, d0, 0⟩).ram (s + 4) = ram 4 ∧
       (run (assemble σ (getCallCode f n k)) 47 ⟨ram, a0, d0, 0⟩).ram 1 = s + 5 ∧
       (run (assemble σ (getCallCode f n k)) 47 ⟨ram, a0, d0, 0⟩).ram 2 =
         sub16 (s + 5) (5 + n) ∧
       (n ≤ s →
         (run (assemble σ (getCallCode f n k)) 47 ⟨ram, a0, d0, 0⟩).ram 2 = s - n))) := by
  refine ⟨rfl, rfl, ?_⟩
  intro σ ram a0 d0 s hsp h16 hlt hn
  rw [call_assemble f n k σ]
  have H := callRunFacts n ram a0 d0 s hsp h16 hlt hn
    (resolveSym (labelAddrs (getCallCode f n k) 0) σ (.name f))
  refine ⟨H.1, H.2.1, H.2.2.1, H.2.2.2.1, H.2.2.2.2.1, H.2.2.2.2.2.1,
    H.2.2.2.2.2.2.1, H.2.2.2.2.2.2.2, ?_⟩
  intro hns
  rw [H.2.2.2.2.2.2.2]
  simp only [sub16]
  omega

/-- C3 at a concrete call: callee Main.f, two arguments, counter 7,
SP = 300: afterwards SP = 305 and ARG = 298. -/
theorem C3_witness :
    (run (assemble (fun _ => 0) (getCallCode "Main.f" 2 7)) 47
       ⟨fun i => if i = 0 then 300 else i, 0, 0, 0⟩).ram 0 = 305 ∧
    (run (assemble (fun _ => 0) (getCallCode "Main.f" 2 7)) 47
       ⟨fun i => if i = 0 then 300 else i, 0, 0, 0⟩).ram 2 = 298 := by
  have H := (C3_call_protocol "Main.f" 2 7).2.2 (fun _ => 0)
    (fun i => if i = 0 then 300 else i) 0 0 300 rfl (by decide) (by decide) (by decide)
  exact ⟨H.1, by rw [H.2.2.2.2.2.2.2.2 (by decide)]⟩

end VMTrans
